import Mathlib

/-!
Verification of the `bafomet` BFT-SMR engine core.

This development shallowly embeds the data model and operations of the
`bafomet` repository (`src/bft/{ordering,consensus,log,cst}`) in Lean and
settles a list of claims about them. Machine integers (`i32`, `u32`) are
modelled as `Int`/`Nat` with explicit wrapping; `VecDeque`/`Vec` become
`List`; hash maps become association lists; fallible operations return
`Except`/`Option`; network sends are returned as explicit output lists.
-/

namespace Bafomet

/-! ## Sequence numbers (`src/bft/ordering/mod.rs`) -/

/-- Checkpoint period (`log::PERIOD : u32 = 1000`). -/
def PERIOD : Nat := 1000

/-- `OVERFLOW_THRES_POS : i32 = 10000` from `SeqNo::index`. -/
def OVERFLOW_THRES_POS : Int := 10000

/-- `OVERFLOW_THRES_NEG : i32 = -OVERFLOW_THRES_POS`. -/
def OVERFLOW_THRES_NEG : Int := -OVERFLOW_THRES_POS

/-- `DROP_SEQNO_THRES : i32 = (PERIOD + (PERIOD >> 1)) as i32 = 1500`. -/
def DROP_SEQNO_THRES : Int := ((PERIOD + (PERIOD >>> 1) : Nat) : Int)

/-- Lower bound of `i32`. -/
def I32_MIN : Int := -2147483648

/-- Upper bound of `i32`. -/
def I32_MAX : Int := 2147483647

/-- Reduction of an integer into the `i32` range, used to model the
wrapping arithmetic (`wrapping_sub`, `wrapping_add`) of the source. -/
def wrap32 (x : Int) : Int := (x + 2147483648) % 4294967296 - 2147483648

/-- `SeqNo` is a newtype over `i32` (`pub struct SeqNo(i32)`). -/
structure SeqNo where
  val : Int
  lb : I32_MIN ≤ val
  hb : val ≤ I32_MAX

theorem SeqNo.ext {a b : SeqNo} (h : a.val = b.val) : a = b := by
  cases a; cases b; cases h; rfl

instance : DecidableEq SeqNo := fun a b =>
  decidable_of_iff (a.val = b.val) (Iff.intro SeqNo.ext (fun h => by rw [h]))

/-- `InvalidSeqNo`, the `Left` outcomes of `SeqNo::index`. -/
inductive InvalidSeqNo
  | Small
  | Big
deriving DecidableEq, Repr

/-- `SeqNo(0)`, the initial sequence number (`SeqNo::from(0)`). -/
def SeqNo.zero : SeqNo :=
  SeqNo.mk 0 (by norm_num [I32_MIN]) (by norm_num [I32_MAX])

/-- `SeqNo::next`: `overflowing_add(1)`, mapping an overflow (only possible
at `i32::MAX`) to `0`. -/
def SeqNo.next (a : SeqNo) : SeqNo :=
  if h : a.val = I32_MAX then
    SeqNo.mk 0 (by norm_num [I32_MIN]) (by norm_num [I32_MAX])
  else
    SeqNo.mk (a.val + 1)
      (by have := a.lb; simp only [I32_MIN, I32_MAX] at *; omega)
      (by have := a.hb; have := h; simp only [I32_MIN, I32_MAX] at *; omega)

theorem SeqNo.next_val (a : SeqNo) :
    (SeqNo.next a).val = if a.val = I32_MAX then 0 else a.val + 1 := by
  unfold SeqNo.next
  split
  case isTrue h => simp [h]
  case isFalse h => simp [h]

/-- The body of `SeqNo::index` applied to the wrapped difference
`self.0.wrapping_sub(other.0)`: overflow correction followed by the
drop-threshold classification. -/
def SeqNo.indexOfDiff (diff : Int) : InvalidSeqNo ⊕ Nat :=
  let index :=
    if diff < OVERFLOW_THRES_NEG ∨ OVERFLOW_THRES_POS < diff then
      wrap32 (wrap32 (I32_MAX + diff) + 1)
    else
      diff
  if index < 0 ∨ DROP_SEQNO_THRES < index then
    Sum.inl (if index < 0 then InvalidSeqNo.Small else InvalidSeqNo.Big)
  else
    Sum.inr index.toNat

/-- `SeqNo::index(self, other)`: distance in sequence space used to index
the TBO queues, with wrap-around correction and drop thresholds. -/
def SeqNo.index (a other : SeqNo) : InvalidSeqNo ⊕ Nat :=
  SeqNo.indexOfDiff (wrap32 (a.val - other.val))

/-- `u32::from(SeqNo)`: reinterpretation of the `i32` as a `u32`. -/
def SeqNo.toU32 (a : SeqNo) : Nat := (a.val % 4294967296).toNat

theorem SeqNo.index_self (a : SeqNo) : SeqNo.index a a = Sum.inr 0 := by
  unfold SeqNo.index
  rw [sub_self]
  decide

theorem SeqNo.index_next (a : SeqNo) : SeqNo.index (SeqNo.next a) a = Sum.inr 1 := by
  unfold SeqNo.index
  rw [SeqNo.next_val]
  by_cases h : a.val = I32_MAX
  · rw [if_pos h, h]
    show SeqNo.indexOfDiff (wrap32 (0 - I32_MAX)) = Sum.inr 1
    decide
  · rw [if_neg h]
    have h1 : a.val + 1 - a.val = 1 := by ring
    rw [h1]
    decide

theorem SeqNo.iterate_next_val (k : Nat) (hk : (k : Int) ≤ I32_MAX) :
    (SeqNo.next^[k] SeqNo.zero).val = k := by
  induction k with
  | zero => rfl
  | succ n ih =>
    have hn : (n : Int) ≤ I32_MAX := by push_cast at hk ⊢; omega
    have hval := ih hn
    rw [Function.iterate_succ_apply', SeqNo.next_val, hval]
    rw [if_neg (by simp only [I32_MAX] at hk ⊢; push_cast at hk ⊢; omega)]
    push_cast; ring

/-! ## Message data model (`src/bft/communication/message/mod.rs`) -/

/-- A hash digest (`crypto::hash::Digest`, an opaque 32-byte value);
only equality of digests is ever inspected by the verified code, so it is
modelled as an abstract numeric identifier. -/
abbrev Digest := Nat

/-- A node identifier (`NodeId`, a `u32`). -/
abbrev NodeId := Nat

/-- `NodeId::targets(0..n)`: the list of the first `n` node ids. -/
def NodeId.targets (n : Nat) : List NodeId := List.range n

/-- Wire message header. The `version`/`from`/`to`/`length` fields follow
`communication::message::Header` in the source; the consensus and CST
modules additionally call `header.digest()` and `header.unique_digest()`.
Modelled from the spec: the `nonce` and `digest` header fields and the
payload-digest accessors, which belong to a revision of
`communication::message` not present under the provided sources
(spec §3, §6: header layout `version, from, to, nonce, length, digest,
signature`). -/
structure Header where
  version : Nat
  from_ : NodeId
  to_ : NodeId
  nonce : Nat
  length : Nat
  digest : Digest
deriving DecidableEq, Repr

/-- Modelled from the spec: `Header::unique_digest`, the identifier under
which a request is keyed in the log, derived from the payload digest
(spec §3: requests are stored keyed by their header's unique digest). -/
def Header.unique_digest (h : Header) : Digest := h.digest

/-- `RequestMessage<O>`: a client request carrying one operation. -/
structure RequestMessage (O : Type) where
  operation : O
deriving DecidableEq, Repr

/-- `ConsensusMessageKind`, as used by `consensus::mod`: a `PRE-PREPARE`
carries the ordered batch of request digests. -/
inductive ConsensusMessageKind
  | PrePrepare (digests : List Digest)
  | Prepare
  | Commit
deriving DecidableEq, Repr

/-- `ConsensusMessage { seq, kind }`. -/
structure ConsensusMessage where
  seq : SeqNo
  kind : ConsensusMessageKind
deriving DecidableEq

/-- `StoredMessage<M>`: a message together with its header. -/
structure StoredMessage (M : Type) where
  header : Header
  message : M
deriving DecidableEq

/-- `DecisionLog`: the consensus messages accepted since the last
checkpoint, one list per phase. -/
structure DecisionLog where
  pre_prepares : List (StoredMessage ConsensusMessage)
  prepares : List (StoredMessage ConsensusMessage)
  commits : List (StoredMessage ConsensusMessage)
deriving DecidableEq

/-- `DecisionLog::new()`. -/
def DecisionLog.new : DecisionLog := DecisionLog.mk [] [] []

/-- `Checkpoint<S>`: an application state snapshot and the seq that
decided the last batch executed before it. -/
structure Checkpoint (S : Type) where
  seq : SeqNo
  appstate : S

/-- `CheckpointState<S>`: the checkpoint lifecycle of the log. -/
inductive CheckpointState (S : Type)
  | None
  | Partial (seq : SeqNo)
  | PartialWithEarlier (seq : SeqNo) (earlier : Checkpoint S)
  | Complete (checkpoint : Checkpoint S)

/-- Modelled from the spec: `ViewInfo`/`SystemParams` live in
`bft::core::server`, which is not among the provided sources. Per the
spec, a view determines the current leader and the system parameters
`n ≥ 3f + 1`, `f`, and the quorum size (spec §1, §6, glossary). -/
structure ViewInfo where
  leader : NodeId
  n : Nat
  f : Nat

/-- Modelled from the spec: the quorum size `2f + 1`
(spec glossary: "Quorum: 2f+1 matching votes"). -/
def ViewInfo.quorum (v : ViewInfo) : Nat := 2 * v.f + 1

/-- `RecoveryState<S, O>`: the payload of CST state replies. -/
structure RecoveryState (S O : Type) where
  view : ViewInfo
  checkpoint : Checkpoint S
  requests : List O
  declog : DecisionLog

/-- `CstMessageKind<S, O>`. -/
inductive CstMessageKind (S O : Type)
  | RequestLatestConsensusSeq
  | ReplyLatestConsensusSeq (seq : SeqNo)
  | RequestState
  | ReplyState (state : RecoveryState S O)

/-- `CstMessage { seq, kind }`. -/
structure CstMessage (S O : Type) where
  seq : SeqNo
  kind : CstMessageKind S O

/-- `CstMessage::take_state()`: extracts the recovery state of a
`ReplyState` message, or `None` for any other kind. -/
def CstMessage.take_state {S O : Type} (m : CstMessage S O) :
    Option (RecoveryState S O) :=
  match m.kind with
  | CstMessageKind.ReplyState state => some state
  | _ => none

/-- `SystemMessage`: the application-level message union (the variants
the verified modules construct or inspect). -/
inductive SystemMessage (S O : Type)
  | Request (m : RequestMessage O)
  | Consensus (m : ConsensusMessage)
  | Cst (m : CstMessage S O)

/-- `Update<O>` (`executable::Update`): one client update to execute. -/
structure Update (O : Type) where
  from_ : NodeId
  digest : Digest
  operation : O
deriving DecidableEq

/-- `UpdateBatch<O>`. -/
structure UpdateBatch (O : Type) where
  inner : List (Update O)
deriving DecidableEq

/-- `UpdateBatch::new()`. -/
def UpdateBatch.new {O : Type} : UpdateBatch O := UpdateBatch.mk []

/-- `UpdateBatch::add(from, digest, operation)`. -/
def UpdateBatch.add {O : Type} (b : UpdateBatch O) (from_ : NodeId)
    (digest : Digest) (operation : O) : UpdateBatch O :=
  UpdateBatch.mk (b.inner ++ [Update.mk from_ digest operation])

/-! ## Association lists standing in for `HashMap`/`OrderedMap` -/

/-- Key membership in an association list (`contains_key`). -/
def alistContains {α : Type} (l : List (Digest × α)) (d : Digest) : Bool :=
  l.any (fun p => p.1 = d)

/-- Removal by key (`HashMap::remove`): the bound value and the list
without that binding, or `none` when the key is absent. -/
def alistRemove {α : Type} (l : List (Digest × α)) (d : Digest) :
    Option (α × List (Digest × α)) :=
  match l with
  | [] => none
  | p :: rest =>
    if p.1 = d then
      some (p.2, rest)
    else
      match alistRemove rest d with
      | some (v, rest') => some (v, p :: rest')
      | none => none

/-- Insertion by key (`HashMap::insert`): replaces an existing binding,
otherwise appends. -/
def alistInsert {α : Type} (l : List (Digest × α)) (d : Digest) (v : α) :
    List (Digest × α) :=
  match l with
  | [] => [(d, v)]
  | p :: rest => if p.1 = d then (d, v) :: rest else p :: alistInsert rest d v

/-! ## The message log (`src/bft/log/mod.rs`) -/

/-- `Info`: reported after a logging operation. -/
inductive Info
  | Nil
  | BeginCheckpoint
deriving DecidableEq, Repr

/-- `Log<S, O, P>`: the full replica memory (the reply phantom type is
dropped). -/
structure Log (S O : Type) where
  curr_seq : SeqNo
  batch_size : Nat
  declog : DecisionLog
  requests : List (Digest × StoredMessage (RequestMessage O))
  deciding : List (Digest × StoredMessage (RequestMessage O))
  decided : List O
  checkpoint : CheckpointState S

/-- `Log::new(batch_size)`. -/
def Log.new (S O : Type) (batch_size : Nat) : Log S O :=
  { curr_seq := SeqNo.zero
    batch_size := batch_size
    declog := DecisionLog.new
    requests := []
    deciding := []
    decided := []
    checkpoint := CheckpointState.None }

/-- `Log::insert(header, message)`: routes by message kind. -/
def Log.insert {S O : Type} (l : Log S O) (header : Header)
    (message : SystemMessage S O) : Log S O :=
  match message with
  | SystemMessage.Request m =>
    { l with requests :=
        alistInsert l.requests header.unique_digest (StoredMessage.mk header m) }
  | SystemMessage.Consensus m =>
    match m.kind with
    | ConsensusMessageKind.PrePrepare _ =>
      { l with declog.pre_prepares :=
          l.declog.pre_prepares ++ [StoredMessage.mk header m] }
    | ConsensusMessageKind.Prepare =>
      { l with declog.prepares :=
          l.declog.prepares ++ [StoredMessage.mk header m] }
    | ConsensusMessageKind.Commit =>
      { l with declog.commits :=
          l.declog.commits ++ [StoredMessage.mk header m] }
  | _ => l

/-- `Log::has_request(digest)`. -/
def Log.has_request {S O : Type} (l : Log S O) (digest : Digest) : Bool :=
  alistContains l.deciding digest || alistContains l.requests digest

/-- The removal loop of `Log::finalize_batch`: each digest is removed
from `deciding`, falling back to `requests`; a missing digest is a log
error (`ok_or(Error::simple(ErrorKind::Log))?`), with the removals made
so far kept. -/
def Log.removeBatch {S O : Type} (l : Log S O) (digests : List Digest)
    (batch : UpdateBatch O) : Log S O × Option (UpdateBatch O) :=
  match digests with
  | [] => (l, some batch)
  | d :: rest =>
    match alistRemove l.deciding d with
    | some (sm, deciding') =>
      Log.removeBatch { l with deciding := deciding' } rest
        (batch.add sm.header.from_ d sm.message.operation)
    | none =>
      match alistRemove l.requests d with
      | some (sm, requests') =>
        Log.removeBatch { l with requests := requests' } rest
          (batch.add sm.header.from_ d sm.message.operation)
      | none => (l, none)

/-- `Log::begin_checkpoint(seq)`: note that the source first replaces the
checkpoint with `None` (`mem::replace`), so on the invalid-state error
the checkpoint is left as `None`. -/
def Log.begin_checkpoint {S O : Type} (l : Log S O) (seq : SeqNo) :
    Log S O × Except String Info :=
  match l.checkpoint with
  | CheckpointState.None =>
    ({ l with checkpoint := CheckpointState.Partial seq },
      Except.ok Info.BeginCheckpoint)
  | CheckpointState.Complete earlier =>
    ({ l with checkpoint := CheckpointState.PartialWithEarlier seq earlier },
      Except.ok Info.BeginCheckpoint)
  | _ =>
    ({ l with checkpoint := CheckpointState.None },
      Except.error "Invalid checkpoint state detected")

/-- The sequence number `finalize_batch` reads: that of the most recent
`PRE-PREPARE`, with `curr_seq` as the fallback for an empty list. -/
def finalizeLastSeq {S O : Type} (l : Log S O) : SeqNo :=
  match l.declog.pre_prepares.getLast? with
  | some stored_pre_prepare => stored_pre_prepare.message.seq
  | none => l.curr_seq

/-- `Log::finalize_batch(digests)`: remove the batch, extend `decided`,
read the seq of the most recent `PRE-PREPARE` (fallback `curr_seq`), and
begin a checkpoint when it is positive and divisible by `PERIOD`. -/
def Log.finalize_batch {S O : Type} (l : Log S O) (digests : List Digest) :
    Log S O × Except String (Info × UpdateBatch O) :=
  match Log.removeBatch l digests UpdateBatch.new with
  | (l1, none) => (l1, Except.error "Log")
  | (l1, some batch) =>
    let l2 := { l1 with decided := l1.decided ++ batch.inner.map Update.operation }
    let last_seq_no := finalizeLastSeq l2
    let last_seq_no_u32 := last_seq_no.toU32
    if last_seq_no_u32 > 0 ∧ last_seq_no_u32 % PERIOD = 0 then
      match Log.begin_checkpoint l2 last_seq_no with
      | (l3, Except.ok info) => (l3, Except.ok (info, batch))
      | (l3, Except.error e) => (l3, Except.error e)
    else
      (l2, Except.ok (Info.Nil, batch))

/-- `Log::finalize_checkpoint(appstate)`: completes a partial checkpoint;
the last `PRE-PREPARE` is popped and the `pre_prepares` list cleared,
with `curr_seq` remembering that last message's seq. -/
def Log.finalize_checkpoint {S O : Type} (l : Log S O) (appstate : S) :
    Log S O × Except String Unit :=
  match l.checkpoint with
  | CheckpointState.None =>
    (l, Except.error "No checkpoint has been initiated yet")
  | CheckpointState.Complete _ =>
    (l, Except.error "Checkpoint already finalized")
  | CheckpointState.Partial seq | CheckpointState.PartialWithEarlier seq _ =>
    let l1 := { l with
      checkpoint := CheckpointState.Complete (Checkpoint.mk seq appstate)
      decided := [] }
    match l1.declog.pre_prepares.getLast? with
    | some last_pre_prepare =>
      ({ l1 with
          declog.pre_prepares := []
          declog.prepares := []
          declog.commits := []
          curr_seq := last_pre_prepare.message.seq },
        Except.ok ())
    | none =>
      ({ l1 with declog.prepares := [], declog.commits := [] }, Except.ok ())

/-- `Log::snapshot(view)`: succeeds only on a `Complete` checkpoint. -/
def Log.snapshot {S O : Type} (l : Log S O) (view : ViewInfo) :
    Except String (RecoveryState S O) :=
  match l.checkpoint with
  | CheckpointState.Complete checkpoint =>
    Except.ok (RecoveryState.mk view checkpoint l.decided l.declog)
  | _ => Except.error "Checkpoint to be finalized"

/-- `Log::install_state(last_seq, rs)`. -/
def Log.install_state {S O : Type} (l : Log S O) (last_seq : SeqNo)
    (rs : RecoveryState S O) : Log S O :=
  { l with
    declog := rs.declog
    decided := rs.requests
    checkpoint := CheckpointState.Complete rs.checkpoint
    curr_seq := last_seq }

/-! ## The TBO queue and consensus engine (`src/bft/consensus/mod.rs`) -/

/-- One slot of a TBO queue: a `VecDeque<(Header, ConsensusMessage)>`. -/
abbrev MsgQueue := List (Header × ConsensusMessage)

/-- `TboQueue`: out-of-order buffering of consensus messages, one
`Deque<Deque<_>>` per phase; slot `i` holds messages of `curr_seq + i`. -/
structure TboQueue where
  curr_seq : SeqNo
  get_queue : Bool
  pre_prepares : List MsgQueue
  prepares : List MsgQueue
  commits : List MsgQueue

/-- `TboQueue::new(curr_seq)`. -/
def TboQueue.new (curr_seq : SeqNo) : TboQueue :=
  { curr_seq := curr_seq
    get_queue := false
    pre_prepares := []
    prepares := []
    commits := [] }

/-- `TboQueue::queue_message`: drop the message if its index is invalid,
otherwise extend the buffer with empty slots up to the index and append
the message at that slot. -/
def TboQueue.queue_message (curr_seq : SeqNo) (tbo : List MsgQueue)
    (h : Header) (m : ConsensusMessage) : List MsgQueue :=
  match SeqNo.index m.seq curr_seq with
  | Sum.inl _ => tbo
  | Sum.inr index =>
    let tbo :=
      if tbo.length ≤ index then
        tbo ++ List.replicate (index - tbo.length + 1) []
      else tbo
    tbo.set index (tbo.getD index [] ++ [(h, m)])

/-- `TboQueue::advance_message_queue`: pop slot 0, recycling its
(cleared) storage at the back. -/
def TboQueue.advance_message_queue (tbo : List MsgQueue) : List MsgQueue :=
  match tbo with
  | [] => []
  | _ :: rest => rest ++ [[]]

/-- `TboQueue::next_instance_queue`. -/
def TboQueue.next_instance_queue (t : TboQueue) : TboQueue :=
  { t with
    curr_seq := t.curr_seq.next
    pre_prepares := TboQueue.advance_message_queue t.pre_prepares
    prepares := TboQueue.advance_message_queue t.prepares
    commits := TboQueue.advance_message_queue t.commits }

/-- `TboQueue::queue_pre_prepare`. -/
def TboQueue.queue_pre_prepare (t : TboQueue) (h : Header)
    (m : ConsensusMessage) : TboQueue :=
  { t with pre_prepares := TboQueue.queue_message t.curr_seq t.pre_prepares h m }

/-- `TboQueue::queue_prepare`. -/
def TboQueue.queue_prepare (t : TboQueue) (h : Header)
    (m : ConsensusMessage) : TboQueue :=
  { t with prepares := TboQueue.queue_message t.curr_seq t.prepares h m }

/-- `TboQueue::queue_commit`. -/
def TboQueue.queue_commit (t : TboQueue) (h : Header)
    (m : ConsensusMessage) : TboQueue :=
  { t with commits := TboQueue.queue_message t.curr_seq t.commits h m }

/-- `TboQueue::queue`: routes a consensus message to the buffer of its
phase. -/
def TboQueue.queue (t : TboQueue) (h : Header) (m : ConsensusMessage) : TboQueue :=
  match m.kind with
  | ConsensusMessageKind.PrePrepare _ => t.queue_pre_prepare h m
  | ConsensusMessageKind.Prepare => t.queue_prepare h m
  | ConsensusMessageKind.Commit => t.queue_commit h m

/-- `ProtoPhase`: the phase of the consensus protocol. -/
inductive ProtoPhase
  | Init
  | PrePreparing
  | PreparingRequests
  | Preparing (i : Nat)
  | Committing (i : Nat)
deriving DecidableEq, Repr

/-- `Consensus<S>`: the state of the consensus protocol tracker (the
service phantom type is dropped). -/
structure Consensus where
  batch_size : Nat
  phase : ProtoPhase
  tbo : TboQueue
  current : List Digest
  missing_requests : List Digest
  missing_swapbuf : List Nat

/-- `Consensus::new(initial_seq_no, batch_size)`: note the `batch_size`
field starts at `0` while `current` is filled with `batch_size` zeroed
digests. -/
def Consensus.new (initial_seq_no : SeqNo) (batch_size : Nat) : Consensus :=
  { batch_size := 0
    phase := ProtoPhase.Init
    missing_swapbuf := []
    missing_requests := []
    tbo := TboQueue.new initial_seq_no
    current := List.replicate batch_size 0 }

/-- `Consensus::sequence_number` (through `Deref` to the `TboQueue`). -/
def Consensus.sequence_number (c : Consensus) : SeqNo := c.tbo.curr_seq

/-- A broadcast emitted by the consensus layer: the source wraps the
`ConsensusMessage` in `SystemMessage::Consensus` and hands it to
`node.broadcast(message, targets)`; the model records the message and
its targets. -/
structure Broadcast where
  message : ConsensusMessage
  targets : List NodeId

/-- `Consensus::propose(digests, view, node)`: note the source moves the
phase to `PrePreparing` before checking whether the node is the view's
leader. -/
def Consensus.propose (c : Consensus) (digests : List Digest) (view : ViewInfo)
    (node_id : NodeId) : Consensus × List Broadcast :=
  match c.phase with
  | ProtoPhase.Init =>
    let c := { c with phase := ProtoPhase.PrePreparing }
    if node_id ≠ view.leader then
      (c, [])
    else
      let message := ConsensusMessage.mk (Consensus.sequence_number c)
        (ConsensusMessageKind.PrePrepare digests)
      (c, [Broadcast.mk message (NodeId.targets view.n)])
  | _ => (c, [])

/-- `Consensus::next_instance`. -/
def Consensus.next_instance (c : Consensus) : Consensus :=
  { c with tbo := c.tbo.next_instance_queue }

/-- `Consensus::install_sequence_number(seq)`: `none` models the panic of
`drain(..limit)` when a phase buffer is shorter than `limit` (the source
only guards against `limit` exceeding the `pre_prepares` buffer). -/
def Consensus.install_sequence_number (c : Consensus) (seq : SeqNo) :
    Option Consensus :=
  match SeqNo.index seq (Consensus.sequence_number c) with
  | Sum.inr limit =>
    if limit = 0 then
      some c
    else if c.tbo.pre_prepares.length ≤ limit then
      some { c with
        tbo := { c.tbo with
          pre_prepares := [], prepares := [], commits := [], curr_seq := seq }
        phase := ProtoPhase.Init }
    else if limit ≤ c.tbo.prepares.length ∧ limit ≤ c.tbo.commits.length then
      some { c with
        tbo := { c.tbo with
          pre_prepares := c.tbo.pre_prepares.drop limit
          prepares := c.tbo.prepares.drop limit
          commits := c.tbo.commits.drop limit
          curr_seq := seq }
        phase := ProtoPhase.Init }
    else
      none
  | Sum.inl _ =>
    some { c with
      tbo := { c.tbo with
        pre_prepares := [], prepares := [], commits := [], curr_seq := seq }
      phase := ProtoPhase.Init }

/-- `ConsensusStatus`: status returned from processing a consensus
message; `Decided` carries (a copy of) `&current[..batch_size]`. -/
inductive ConsensusStatus
  | VotedTwice (id : NodeId)
  | Deciding
  | Decided (digests : List Digest)
deriving DecidableEq, Repr

/-- The outcome of `Consensus::process_message`: the status, the updated
consensus and log states, and the broadcasts sent through the node. -/
structure ConsensusResult (S O : Type) where
  status : ConsensusStatus
  consensus : Consensus
  log : Log S O
  broadcasts : List Broadcast

/-- `Consensus` analogue of `TboQueue::queue_pre_prepare` (reached
through `DerefMut`). -/
def Consensus.queue_pre_prepare (c : Consensus) (h : Header)
    (m : ConsensusMessage) : Consensus :=
  { c with tbo := c.tbo.queue_pre_prepare h m }

/-- `Consensus` analogue of `TboQueue::queue_prepare`. -/
def Consensus.queue_prepare (c : Consensus) (h : Header)
    (m : ConsensusMessage) : Consensus :=
  { c with tbo := c.tbo.queue_prepare h m }

/-- `Consensus` analogue of `TboQueue::queue_commit`. -/
def Consensus.queue_commit (c : Consensus) (h : Header)
    (m : ConsensusMessage) : Consensus :=
  { c with tbo := c.tbo.queue_commit h m }

/-- `Consensus::process_message(header, message, view, log, node)`.
`none` models the panics of the two slice operations:
`current[..digests.len()].copy_from_slice(..)` when the `PRE-PREPARE`
batch is longer than `current`, and `&current[..batch_size]` when
`batch_size` exceeds the length of `current`. -/
def Consensus.process_message {S O : Type} (c : Consensus) (header : Header)
    (message : ConsensusMessage) (view : ViewInfo) (log : Log S O)
    (node_id : NodeId) : Option (ConsensusResult S O) :=
  match c.phase with
  | ProtoPhase.Init =>
    match message.kind with
    | ConsensusMessageKind.PrePrepare _ =>
      some (ConsensusResult.mk ConsensusStatus.Deciding
        (c.queue_pre_prepare header message) log [])
    | ConsensusMessageKind.Prepare =>
      some (ConsensusResult.mk ConsensusStatus.Deciding
        (c.queue_prepare header message) log [])
    | ConsensusMessageKind.Commit =>
      some (ConsensusResult.mk ConsensusStatus.Deciding
        (c.queue_commit header message) log [])
  | ProtoPhase.PrePreparing =>
    match message.kind with
    | ConsensusMessageKind.PrePrepare digests =>
      if message.seq ≠ Consensus.sequence_number c then
        some (ConsensusResult.mk ConsensusStatus.Deciding
          (c.queue_pre_prepare header message) log [])
      else if c.current.length < digests.length then
        none
      else
        let c1 := { c with
          batch_size := digests.length
          current := digests ++ c.current.drop digests.length }
        let broadcasts :=
          if node_id ≠ view.leader then
            [Broadcast.mk
              (ConsensusMessage.mk (Consensus.sequence_number c1)
                ConsensusMessageKind.Prepare)
              (NodeId.targets view.n)]
          else []
        let log1 := log.insert header (SystemMessage.Consensus message)
        let missing := c1.missing_requests ++
          c1.current.filter (fun d => ¬ log1.has_request d)
        let c2 := { c1 with
          missing_requests := missing
          phase :=
            if missing.isEmpty then ProtoPhase.Preparing 0
            else ProtoPhase.PreparingRequests }
        some (ConsensusResult.mk ConsensusStatus.Deciding c2 log1 broadcasts)
    | ConsensusMessageKind.Prepare =>
      some (ConsensusResult.mk ConsensusStatus.Deciding
        (c.queue_prepare header message) log [])
    | ConsensusMessageKind.Commit =>
      some (ConsensusResult.mk ConsensusStatus.Deciding
        (c.queue_commit header message) log [])
  | ProtoPhase.PreparingRequests =>
    match message.kind with
    | ConsensusMessageKind.PrePrepare _ =>
      some (ConsensusResult.mk ConsensusStatus.Deciding
        (c.queue_pre_prepare header message) log [])
    | ConsensusMessageKind.Prepare =>
      some (ConsensusResult.mk ConsensusStatus.Deciding
        (c.queue_prepare header message) log [])
    | ConsensusMessageKind.Commit =>
      some (ConsensusResult.mk ConsensusStatus.Deciding
        (c.queue_commit header message) log [])
  | ProtoPhase.Preparing i =>
    match message.kind with
    | ConsensusMessageKind.PrePrepare _ =>
      some (ConsensusResult.mk ConsensusStatus.Deciding
        (c.queue_pre_prepare header message) log [])
    | ConsensusMessageKind.Prepare =>
      if message.seq ≠ Consensus.sequence_number c then
        some (ConsensusResult.mk ConsensusStatus.Deciding
          (c.queue_prepare header message) log [])
      else
        let i := i + 1
        let log1 := log.insert header (SystemMessage.Consensus message)
        if i = view.quorum then
          let commitMsg := ConsensusMessage.mk (Consensus.sequence_number c)
            ConsensusMessageKind.Commit
          some (ConsensusResult.mk ConsensusStatus.Deciding
            { c with phase := ProtoPhase.Committing 0 } log1
            [Broadcast.mk commitMsg (NodeId.targets view.n)])
        else
          some (ConsensusResult.mk ConsensusStatus.Deciding
            { c with phase := ProtoPhase.Preparing i } log1 [])
    | ConsensusMessageKind.Commit =>
      some (ConsensusResult.mk ConsensusStatus.Deciding
        (c.queue_commit header message) log [])
  | ProtoPhase.Committing i =>
    match message.kind with
    | ConsensusMessageKind.PrePrepare _ =>
      some (ConsensusResult.mk ConsensusStatus.Deciding
        (c.queue_pre_prepare header message) log [])
    | ConsensusMessageKind.Prepare =>
      some (ConsensusResult.mk ConsensusStatus.Deciding
        (c.queue_prepare header message) log [])
    | ConsensusMessageKind.Commit =>
      if message.seq ≠ Consensus.sequence_number c then
        some (ConsensusResult.mk ConsensusStatus.Deciding
          (c.queue_commit header message) log [])
      else
        let i := i + 1
        let log1 := log.insert header (SystemMessage.Consensus message)
        if i = view.quorum then
          if c.batch_size ≤ c.current.length then
            some (ConsensusResult.mk
              (ConsensusStatus.Decided (c.current.take c.batch_size))
              { c with phase := ProtoPhase.Init } log1 [])
          else
            none
        else
          some (ConsensusResult.mk ConsensusStatus.Deciding
            { c with phase := ProtoPhase.Committing i } log1 [])

/-! ## Collaborative state transfer (`src/bft/cst/mod.rs`) -/

/-- `ReceivedState<S, O>`: a bucket of matching state replies. -/
structure ReceivedState (S O : Type) where
  count : Nat
  state : RecoveryState S O

/-- The CST `ProtoPhase`. -/
inductive CstProtoPhase (S O : Type)
  | Init
  | WaitingCheckpoint (header : Header) (message : CstMessage S O)
  | ReceivingCid (i : Nat)
  | ReceivingState (i : Nat)

/-- `CollabStateTransfer<S>`: the state of an on-going CST execution.
Timeout durations are modelled as plain numbers. -/
structure CollabStateTransfer (S O : Type) where
  latest_cid : SeqNo
  cst_seq : SeqNo
  latest_cid_count : Nat
  base_timeout : Nat
  curr_timeout : Nat
  received_states : List (Digest × ReceivedState S O)
  phase : CstProtoPhase S O

/-- `CstStatus<S, O>`: status returned from processing a CST message. -/
inductive CstStatus (S O : Type)
  | Nil
  | Running
  | RequestLatestCid
  | RequestState
  | SeqNo (seq : SeqNo)
  | State (state : RecoveryState S O)

/-- `CstProgress<S, O>`. -/
inductive CstProgress (S O : Type)
  | Nil
  | Message (header : Header) (message : CstMessage S O)

/-- A point-to-point reply emitted by the CST layer (the source wraps the
`CstMessage` in `SystemMessage::Cst` and calls `node.send(reply, to)`). -/
structure CstSend (S O : Type) where
  message : CstMessage S O
  to_ : NodeId

/-- The outcome of `CollabStateTransfer::process_message`: the status,
the updated CST state, and the replies sent through the node. -/
structure CstResult (S O : Type) where
  status : CstStatus S O
  cst : CollabStateTransfer S O
  sends : List (CstSend S O)

/-- `CollabStateTransfer::new(base_timeout)`. -/
def CollabStateTransfer.new (S O : Type) (base_timeout : Nat) :
    CollabStateTransfer S O :=
  { base_timeout := base_timeout
    curr_timeout := base_timeout
    received_states := []
    phase := CstProtoPhase.Init
    latest_cid := SeqNo.zero
    latest_cid_count := 0
    cst_seq := SeqNo.zero }

/-- `CollabStateTransfer::process_reply_state`: reply with a snapshot, or
park the request in `WaitingCheckpoint` when the checkpoint is not yet
complete. -/
def CollabStateTransfer.process_reply_state {S O : Type}
    (cst : CollabStateTransfer S O) (header : Header) (message : CstMessage S O)
    (view : ViewInfo) (log : Log S O) :
    CollabStateTransfer S O × List (CstSend S O) :=
  match log.snapshot view with
  | Except.error _ =>
    ({ cst with phase := CstProtoPhase.WaitingCheckpoint header message }, [])
  | Except.ok snapshot =>
    (cst,
      [CstSend.mk
        (CstMessage.mk message.seq (CstMessageKind.ReplyState snapshot))
        header.from_])

/-- Bucketing of an accepted state reply:
`received_states.entry(digest).or_insert(ReceivedState { count: 0, state })`
followed by `count += 1`. -/
def bumpReceivedState {S O : Type} (l : List (Digest × ReceivedState S O))
    (d : Digest) (state : RecoveryState S O) :
    List (Digest × ReceivedState S O) :=
  if alistContains l d then
    l.map (fun p =>
      if p.1 = d then (p.1, ReceivedState.mk (p.2.count + 1) p.2.state) else p)
  else
    l ++ [(d, ReceivedState.mk 1 state)]

/-- `received_states.iter().max_by_key(|(_, st)| st.count)`: the digest of
a bucket of maximal count (of equal maxima, the last one in iteration
order, matching `Iterator::max_by_key`). -/
def alistMaxCount {S O : Type} (l : List (Digest × ReceivedState S O)) :
    Option Digest :=
  (l.foldl
    (fun acc p =>
      match acc with
      | none => some p
      | some q => if q.2.count ≤ p.2.count then some p else some q)
    none).map Prod.fst

/-- `CollabStateTransfer::process_message`: advances the CST state
machine. `consensus` is read for its sequence number when serving
`RequestLatestConsensusSeq`. -/
def CollabStateTransfer.process_message {S O : Type}
    (cst : CollabStateTransfer S O) (progress : CstProgress S O)
    (view : ViewInfo) (consensus : Consensus) (log : Log S O) :
    CstResult S O :=
  match cst.phase with
  | CstProtoPhase.WaitingCheckpoint header message =>
    let cst1 := { cst with phase := CstProtoPhase.Init }
    let (cst2, sends) :=
      CollabStateTransfer.process_reply_state cst1 header message view log
    CstResult.mk CstStatus.Nil cst2 sends
  | CstProtoPhase.Init =>
    match progress with
    | CstProgress.Nil => CstResult.mk CstStatus.Nil cst []
    | CstProgress.Message header message =>
      match message.kind with
      | CstMessageKind.RequestLatestConsensusSeq =>
        CstResult.mk CstStatus.Nil cst
          [CstSend.mk
            (CstMessage.mk message.seq
              (CstMessageKind.ReplyLatestConsensusSeq
                (Consensus.sequence_number consensus)))
            header.from_]
      | CstMessageKind.RequestState =>
        let (cst1, sends) :=
          CollabStateTransfer.process_reply_state cst header message view log
        CstResult.mk CstStatus.Nil cst1 sends
      | _ => CstResult.mk CstStatus.Nil cst []
  | CstProtoPhase.ReceivingCid i =>
    match progress with
    | CstProgress.Nil => CstResult.mk CstStatus.RequestLatestCid cst []
    | CstProgress.Message _header message =>
      if message.seq ≠ cst.cst_seq then
        CstResult.mk CstStatus.Running cst []
      else
        match message.kind with
        | CstMessageKind.ReplyLatestConsensusSeq seq =>
          let cst1 :=
            match compare seq.val cst.latest_cid.val with
            | Ordering.gt =>
              { cst with latest_cid := seq, latest_cid_count := 1 }
            | Ordering.eq =>
              { cst with latest_cid_count := cst.latest_cid_count + 1 }
            | Ordering.lt => cst
          let i := i + 1
          if i = view.quorum then
            let cst2 := { cst1 with phase := CstProtoPhase.Init }
            if view.f < cst2.latest_cid_count then
              CstResult.mk (CstStatus.SeqNo cst2.latest_cid)
                { cst2 with curr_timeout := cst2.base_timeout } []
            else
              CstResult.mk CstStatus.RequestLatestCid cst2 []
          else
            CstResult.mk CstStatus.Running
              { cst1 with phase := CstProtoPhase.ReceivingCid i } []
        | _ => CstResult.mk CstStatus.Running cst []
  | CstProtoPhase.ReceivingState i =>
    match progress with
    | CstProgress.Nil => CstResult.mk CstStatus.RequestState cst []
    | CstProgress.Message header message =>
      if message.seq ≠ cst.cst_seq then
        CstResult.mk CstStatus.Running cst []
      else
        match message.take_state with
        | none => CstResult.mk CstStatus.Running cst []
        | some state =>
          let bumped := bumpReceivedState cst.received_states header.digest state
          let cst1 := { cst with received_states := bumped }
          let i := i + 1
          if i ≠ view.quorum then
            CstResult.mk CstStatus.Running
              { cst1 with phase := CstProtoPhase.ReceivingState i } []
          else
            match alistMaxCount cst1.received_states with
            | none =>
              CstResult.mk CstStatus.RequestState
                { cst1 with received_states := [] } []
            | some digest =>
              let removed := alistRemove cst1.received_states digest
              let cst2 := { cst1 with
                received_states := []
                curr_timeout := cst1.base_timeout }
              match removed with
              | some (rs, _) =>
                if view.f < rs.count then
                  CstResult.mk (CstStatus.State rs.state) cst2 []
                else
                  CstResult.mk CstStatus.RequestState cst2 []
              | none => CstResult.mk CstStatus.RequestState cst2 []

/-- `CollabStateTransfer::next_seq`: returns the current `cst_seq` and
advances it. -/
def CollabStateTransfer.next_seq {S O : Type} (cst : CollabStateTransfer S O) :
    SeqNo × CollabStateTransfer S O :=
  (cst.cst_seq, { cst with cst_seq := cst.cst_seq.next })

/-- `CollabStateTransfer::request_latest_consensus_seq_no`: reset the cid
tally, advance `cst_seq`, move to `ReceivingCid(0)` and broadcast the
request (the timeout registration is an external effect and is not
modelled). -/
def CollabStateTransfer.request_latest_consensus_seq_no {S O : Type}
    (cst : CollabStateTransfer S O) (view : ViewInfo) :
    CollabStateTransfer S O × CstMessage S O × List NodeId :=
  let cst1 := { cst with latest_cid := SeqNo.zero, latest_cid_count := 0 }
  let (cst_seq, cst2) := cst1.next_seq
  let cst3 := { cst2 with phase := CstProtoPhase.ReceivingCid 0 }
  (cst3, CstMessage.mk cst_seq CstMessageKind.RequestLatestConsensusSeq,
    NodeId.targets view.n)

/-- `CollabStateTransfer::request_latest_state`: clear `received_states`,
advance `cst_seq`, move to `ReceivingState(0)` and broadcast the request
(the timeout registration is an external effect and is not modelled). -/
def CollabStateTransfer.request_latest_state {S O : Type}
    (cst : CollabStateTransfer S O) (view : ViewInfo) :
    CollabStateTransfer S O × CstMessage S O × List NodeId :=
  let cst1 := { cst with received_states := [] }
  let (cst_seq, cst2) := cst1.next_seq
  let cst3 := { cst2 with phase := CstProtoPhase.ReceivingState 0 }
  (cst3, CstMessage.mk cst_seq CstMessageKind.RequestState,
    NodeId.targets view.n)

/-! ## Claim C8: SeqNo algebra -/

/-- C8 counterexample: starting from `SeqNo(0)`, iterating `next()`
`i32::MAX` times does not return the sequence number to `0` — it reaches
`i32::MAX` (the cycle length is `i32::MAX + 1 = 2^31`). -/
theorem c8_iterate_max_ne_zero :
    SeqNo.next^[2147483647] SeqNo.zero ≠ SeqNo.zero := by
  intro h
  have hval := SeqNo.iterate_next_val 2147483647 (by norm_num [I32_MAX])
  rw [h] at hval
  norm_num [SeqNo.zero] at hval

/-- C8 (amended): for every `SeqNo` `a`, `a.next().index(a) = Right(1)`
and `a.index(a) = Right(0)`, including across the wrap point where
`next()` maps `i32::MAX` to `0`; and starting from `0`, iterating
`next()` `i32::MAX + 1 = 2^31` times returns the sequence number to `0`. -/
theorem c8_seqno_algebra :
    (∀ a : SeqNo,
      SeqNo.index (SeqNo.next a) a = Sum.inr 1 ∧ SeqNo.index a a = Sum.inr 0)
    ∧ SeqNo.next^[2147483648] SeqNo.zero = SeqNo.zero := by
  refine And.intro (fun a => And.intro (SeqNo.index_next a) (SeqNo.index_self a)) ?_
  have h : (2147483648 : Nat) = 2147483647 + 1 := by norm_num
  rw [h, Function.iterate_succ_apply']
  apply SeqNo.ext
  rw [SeqNo.next_val]
  have hval := SeqNo.iterate_next_val 2147483647 (by norm_num [I32_MAX])
  rw [hval]
  norm_num [I32_MAX, SeqNo.zero]

/-! ## Claim C9: TBO queue insert/drop policy -/

/-- Slot `j` of a TBO phase buffer; the empty deque when the slot does
not exist. -/
def slotGetD (tbo : List MsgQueue) (j : Nat) : MsgQueue := tbo.getD j []

theorem getD_extend (tbo : List MsgQueue) (k j : Nat) :
    (tbo ++ List.replicate k ([] : MsgQueue)).getD j [] = tbo.getD j [] := by
  rcases lt_or_ge j tbo.length with hj | hj
  · rw [List.getD_eq_getElem?_getD, List.getD_eq_getElem?_getD,
      List.getElem?_append_left hj]
  · rw [List.getD_eq_getElem?_getD, List.getD_eq_getElem?_getD,
      List.getElem?_append_right hj, List.getElem?_eq_none hj,
      List.getElem?_replicate]
    split <;> rfl

theorem slotGetD_extend (tbo : List MsgQueue) (k j : Nat) :
    slotGetD (tbo ++ List.replicate k ([] : MsgQueue)) j = slotGetD tbo j :=
  getD_extend tbo k j

/-- The message `(h, m)` was appended at slot `i`, empty intermediate
slots were created as needed, and no other slot changed. -/
def slotAppended (old new : List MsgQueue) (i : Nat) (h : Header)
    (m : ConsensusMessage) : Prop :=
  new.length = max old.length (i + 1) ∧
  slotGetD new i = slotGetD old i ++ [(h, m)] ∧
  ∀ j, j ≠ i → slotGetD new j = slotGetD old j

theorem queue_message_drop (curr : SeqNo) (tbo : List MsgQueue) (h : Header)
    (m : ConsensusMessage) (e : InvalidSeqNo)
    (hidx : SeqNo.index m.seq curr = Sum.inl e) :
    TboQueue.queue_message curr tbo h m = tbo := by
  unfold TboQueue.queue_message
  rw [hidx]

theorem queue_message_spec (curr : SeqNo) (tbo : List MsgQueue) (h : Header)
    (m : ConsensusMessage) (i : Nat)
    (hidx : SeqNo.index m.seq curr = Sum.inr i) :
    slotAppended tbo (TboQueue.queue_message curr tbo h m) i h m := by
  unfold TboQueue.queue_message
  rw [hidx]
  by_cases hlen : tbo.length ≤ i
  · simp only [if_pos hlen]
    have hlen2 : (tbo ++ List.replicate (i - tbo.length + 1) ([] : MsgQueue)).length
        = i + 1 := by
      rw [List.length_append, List.length_replicate]; omega
    refine And.intro ?_ (And.intro ?_ ?_)
    · rw [List.length_set, hlen2]; omega
    · unfold slotGetD
      rw [List.getD_eq_getElem?_getD, List.getElem?_set_self (by omega),
        Option.getD_some, getD_extend]
    · intro j hj
      unfold slotGetD
      rw [List.getD_eq_getElem?_getD, List.getElem?_set_ne (fun hc => hj hc.symm),
        ← List.getD_eq_getElem?_getD, getD_extend]
  · simp only [if_neg hlen]
    push_neg at hlen
    refine And.intro ?_ (And.intro ?_ ?_)
    · rw [List.length_set]; omega
    · unfold slotGetD
      rw [List.getD_eq_getElem?_getD, List.getElem?_set_self (by omega),
        Option.getD_some]
    · intro j hj
      unfold slotGetD
      rw [List.getD_eq_getElem?_getD, List.getElem?_set_ne (fun hc => hj hc.symm),
        ← List.getD_eq_getElem?_getD]

/-- C9: queueing a consensus message drops it exactly when
`m.seq.index(curr_seq)` is `Left` (too old, or further ahead than
`DROP_SEQNO_THRES`); otherwise, for index `Right(i)`, the message is
appended at slot `i` of the queue of its phase, with empty intermediate
slots created as needed, and no other slot of any queue changes. -/
theorem c9_tbo_drop_policy (tq : TboQueue) (h : Header) (m : ConsensusMessage) :
    (∀ e, SeqNo.index m.seq tq.curr_seq = Sum.inl e → tq.queue h m = tq) ∧
    (∀ i, SeqNo.index m.seq tq.curr_seq = Sum.inr i →
      (tq.queue h m).curr_seq = tq.curr_seq ∧
      (tq.queue h m).get_queue = tq.get_queue ∧
      (∀ digests, m.kind = ConsensusMessageKind.PrePrepare digests →
        slotAppended tq.pre_prepares (tq.queue h m).pre_prepares i h m ∧
        (tq.queue h m).prepares = tq.prepares ∧
        (tq.queue h m).commits = tq.commits) ∧
      (m.kind = ConsensusMessageKind.Prepare →
        slotAppended tq.prepares (tq.queue h m).prepares i h m ∧
        (tq.queue h m).pre_prepares = tq.pre_prepares ∧
        (tq.queue h m).commits = tq.commits) ∧
      (m.kind = ConsensusMessageKind.Commit →
        slotAppended tq.commits (tq.queue h m).commits i h m ∧
        (tq.queue h m).pre_prepares = tq.pre_prepares ∧
        (tq.queue h m).prepares = tq.prepares)) := by
  constructor
  · intro e hidx
    unfold TboQueue.queue TboQueue.queue_pre_prepare TboQueue.queue_prepare
      TboQueue.queue_commit
    cases hk : m.kind <;>
      simp only [queue_message_drop tq.curr_seq _ h m e hidx]
  · intro i hidx
    unfold TboQueue.queue TboQueue.queue_pre_prepare TboQueue.queue_prepare
      TboQueue.queue_commit
    cases hk : m.kind with
    | PrePrepare digests =>
      refine And.intro rfl (And.intro rfl (And.intro ?_ (And.intro ?_ ?_)))
      · exact fun _ _ => And.intro (queue_message_spec _ _ _ _ _ hidx)
          (And.intro rfl rfl)
      · intro hc; simp at hc
      · intro hc; simp at hc
    | Prepare =>
      refine And.intro rfl (And.intro rfl (And.intro ?_ (And.intro ?_ ?_)))
      · intro d hc; simp at hc
      · exact fun _ => And.intro (queue_message_spec _ _ _ _ _ hidx)
          (And.intro rfl rfl)
      · intro hc; simp at hc
    | Commit =>
      refine And.intro rfl (And.intro rfl (And.intro ?_ (And.intro ?_ ?_)))
      · intro d hc; simp at hc
      · intro hc; simp at hc
      · exact fun _ => And.intro (queue_message_spec _ _ _ _ _ hidx)
          (And.intro rfl rfl)

/-- An all-zero header used to instantiate witnesses. -/
def hdr0 : Header := Header.mk 0 0 0 0 0 0

/-- A `Commit` consensus message for seq `0`. -/
def msgCommit0 : ConsensusMessage :=
  ConsensusMessage.mk SeqNo.zero ConsensusMessageKind.Commit

/-- An empty TBO queue at seq `0`. -/
def tq0 : TboQueue := TboQueue.new SeqNo.zero

/-- C9 witness: queueing a `Commit` for the current seq on an empty
queue lands it in slot `0` of the commits buffer. -/
theorem c9_tbo_drop_policy_witness :
    SeqNo.index msgCommit0.seq tq0.curr_seq = Sum.inr 0 ∧
    slotGetD (tq0.queue hdr0 msgCommit0).commits 0 = [(hdr0, msgCommit0)] := by
  have hidx : SeqNo.index msgCommit0.seq tq0.curr_seq = Sum.inr 0 := by decide
  refine And.intro hidx ?_
  have hmain := (c9_tbo_drop_policy tq0 hdr0 msgCommit0).2 0 hidx
  have hslot := ((hmain.2.2.2.2) rfl).1.2.1
  simpa [slotGetD, tq0, TboQueue.new] using hslot

/-! ## Claim C6: `install_sequence_number` -/

/-- A consensus state sitting in phase `Committing(0)` at seq `0`. -/
def consCommitting : Consensus :=
  { Consensus.new SeqNo.zero 1 with phase := ProtoPhase.Committing 0 }

/-- C6 counterexample: installing the current sequence number
(`seq.index(curr_seq) = Right(0)`) returns early, leaving the whole
state — in particular a non-`Init` phase — unchanged, where the claim
requires the phase to be reset to `Init`. -/
theorem c6_install_keeps_phase :
    (Consensus.install_sequence_number consCommitting SeqNo.zero).map
      Consensus.phase = some (ProtoPhase.Committing 0) := by
  decide

/-- C6 (amended): `install_sequence_number(seq)` leaves the state
entirely unchanged (phase included) when `seq.index(curr_seq) = Right(0)`;
otherwise it sets the tracked sequence number to `seq` and resets the
phase to `Init`, clearing all three queues when the index is `Left` or
when the limit meets or exceeds the `pre_prepares` buffer length, and
otherwise dropping the first `limit` slots of each queue (which requires
the `prepares` and `commits` buffers to hold at least `limit` slots,
the `drain` panicking otherwise). -/
theorem c6_install_sequence_number (c : Consensus) (seq : SeqNo) :
    (SeqNo.index seq (Consensus.sequence_number c) = Sum.inr 0 →
      c.install_sequence_number seq = some c) ∧
    (∀ e, SeqNo.index seq (Consensus.sequence_number c) = Sum.inl e →
      c.install_sequence_number seq = some { c with
        tbo := { c.tbo with
          pre_prepares := [], prepares := [], commits := [], curr_seq := seq }
        phase := ProtoPhase.Init }) ∧
    (∀ i, SeqNo.index seq (Consensus.sequence_number c) = Sum.inr i → i ≠ 0 →
      (c.tbo.pre_prepares.length ≤ i →
        c.install_sequence_number seq = some { c with
          tbo := { c.tbo with
            pre_prepares := [], prepares := [], commits := [], curr_seq := seq }
          phase := ProtoPhase.Init }) ∧
      (i < c.tbo.pre_prepares.length → i ≤ c.tbo.prepares.length →
        i ≤ c.tbo.commits.length →
        c.install_sequence_number seq = some { c with
          tbo := { c.tbo with
            pre_prepares := c.tbo.pre_prepares.drop i
            prepares := c.tbo.prepares.drop i
            commits := c.tbo.commits.drop i
            curr_seq := seq }
          phase := ProtoPhase.Init })) := by
  refine And.intro ?_ (And.intro ?_ ?_)
  · intro hidx
    unfold Consensus.install_sequence_number
    rw [hidx]
    dsimp only
    rw [if_pos rfl]
  · intro e hidx
    unfold Consensus.install_sequence_number
    rw [hidx]
  · intro i hidx hi
    constructor
    · intro hlen
      unfold Consensus.install_sequence_number
      rw [hidx]
      dsimp only
      rw [if_neg hi, if_pos hlen]
    · intro hlt hp hc
      unfold Consensus.install_sequence_number
      rw [hidx]
      dsimp only
      rw [if_neg hi, if_neg (by omega), if_pos (And.intro hp hc)]

/-- The sequence number `2`. -/
def seqTwo : SeqNo := SeqNo.next (SeqNo.next SeqNo.zero)

/-- A consensus state at seq `0` whose TBO buffers hold three (empty)
slots each. -/
def consThreeSlots : Consensus :=
  { Consensus.new SeqNo.zero 1 with
    tbo := { TboQueue.new SeqNo.zero with
      pre_prepares := [[], [], []]
      prepares := [[], [], []]
      commits := [[], [], []] } }

/-- C6 witness: installing seq `2` on a state with three buffered slots
drops the first two slots of each queue and resets the phase. -/
theorem c6_install_sequence_number_witness :
    2 < consThreeSlots.tbo.pre_prepares.length ∧
    Consensus.install_sequence_number consThreeSlots seqTwo = some { consThreeSlots with
      tbo := { consThreeSlots.tbo with
        pre_prepares := consThreeSlots.tbo.pre_prepares.drop 2
        prepares := consThreeSlots.tbo.prepares.drop 2
        commits := consThreeSlots.tbo.commits.drop 2
        curr_seq := seqTwo }
      phase := ProtoPhase.Init } :=
  And.intro (by decide)
    (((c6_install_sequence_number consThreeSlots seqTwo).2.2 2
        (by decide) (by decide)).2 (by decide) (by decide) (by decide))

/-! ## Claim C7: `propose` -/

/-- A view of a four-replica system whose leader is node `1`. -/
def viewLeader1 : ViewInfo := ViewInfo.mk 1 4 1

/-- A fresh consensus state in phase `Init`. -/
def consInit : Consensus := Consensus.new SeqNo.zero 1

/-- C7 counterexample: a non-leader (node `0`, leader is node `1`)
calling `propose` from `Init` broadcasts nothing, but its phase still
moves to `PrePreparing` — the state is not left unchanged as claimed. -/
theorem c7_propose_nonleader_phase :
    (Consensus.propose consInit [] viewLeader1 0).1.phase
        = ProtoPhase.PrePreparing ∧
    (Consensus.propose consInit [] viewLeader1 0).2 = [] ∧
    viewLeader1.leader = 1 := by
  refine And.intro rfl (And.intro rfl rfl)

/-- C7 (amended): `propose(digests, view, node)` broadcasts a
`PrePrepare` carrying the digests for the current sequence number exactly
when the phase is `Init` and the node is the current view's leader, in
which case the phase moves to `PrePreparing`; with a phase other than
`Init` nothing changes and nothing is broadcast; but from `Init` on a
non-leader, although nothing is broadcast, the phase still moves to
`PrePreparing` (the source flips the phase before the leader check). -/
theorem c7_propose (c : Consensus) (digests : List Digest) (view : ViewInfo)
    (node_id : NodeId) :
    (c.phase = ProtoPhase.Init → node_id = view.leader →
      c.propose digests view node_id =
        ({ c with phase := ProtoPhase.PrePreparing },
          [Broadcast.mk
            (ConsensusMessage.mk (Consensus.sequence_number c)
              (ConsensusMessageKind.PrePrepare digests))
            (NodeId.targets view.n)])) ∧
    (c.phase = ProtoPhase.Init → node_id ≠ view.leader →
      c.propose digests view node_id =
        ({ c with phase := ProtoPhase.PrePreparing }, [])) ∧
    (c.phase ≠ ProtoPhase.Init → c.propose digests view node_id = (c, [])) := by
  refine And.intro ?_ (And.intro ?_ ?_)
  · intro hph hld
    unfold Consensus.propose
    rw [hph]
    simp [hld]
    rfl
  · intro hph hld
    unfold Consensus.propose
    rw [hph]
    simp [if_pos hld]
  · intro hph
    unfold Consensus.propose
    cases hc : c.phase <;> first
      | exact absurd hc hph
      | rfl

/-- C7 witness: the leader (node `1`) proposing from `Init` broadcasts a
`PrePrepare` with the batch digests and moves to `PrePreparing`. -/
theorem c7_propose_witness :
    consInit.phase = ProtoPhase.Init ∧ (1 : NodeId) = viewLeader1.leader ∧
    Consensus.propose consInit [7] viewLeader1 1 =
      ({ consInit with phase := ProtoPhase.PrePreparing },
        [Broadcast.mk
          (ConsensusMessage.mk (Consensus.sequence_number consInit)
            (ConsensusMessageKind.PrePrepare [7]))
          (NodeId.targets viewLeader1.n)]) :=
  And.intro rfl (And.intro rfl
    ((c7_propose consInit [7] viewLeader1 1).1 rfl rfl))

/-! ## Claim C1: the `Committing` phase of `process_message` -/

/-- C1: in phase `Committing(i)`, a `Commit` message whose sequence
number equals the current one increments the vote count; when the new
count `i + 1` equals the quorum `2f + 1`, the phase is reset to `Init`
and the result is `Decided` with exactly the first `batch_size` digests
of the current batch; otherwise the phase becomes `Committing(i + 1)` and
the result is `Deciding` (in both cases the message is inserted into the
log and nothing is broadcast). -/
theorem c1_committing_commit {S O : Type} (c : Consensus) (i : Nat)
    (header : Header) (message : ConsensusMessage) (view : ViewInfo)
    (log : Log S O) (node_id : NodeId)
    (hph : c.phase = ProtoPhase.Committing i)
    (hkind : message.kind = ConsensusMessageKind.Commit)
    (hseq : message.seq = Consensus.sequence_number c)
    (hbs : c.batch_size ≤ c.current.length) :
    view.quorum = 2 * view.f + 1 ∧
    (i + 1 = view.quorum →
      c.process_message header message view log node_id =
        some (ConsensusResult.mk
          (ConsensusStatus.Decided (c.current.take c.batch_size))
          { c with phase := ProtoPhase.Init }
          (log.insert header (SystemMessage.Consensus message)) [])) ∧
    (i + 1 ≠ view.quorum →
      c.process_message header message view log node_id =
        some (ConsensusResult.mk ConsensusStatus.Deciding
          { c with phase := ProtoPhase.Committing (i + 1) }
          (log.insert header (SystemMessage.Consensus message)) [])) := by
  refine And.intro rfl (And.intro ?_ ?_)
  · intro hq
    unfold Consensus.process_message
    rw [hph]
    dsimp only
    rw [hkind]
    dsimp only
    rw [if_neg (fun hne => hne hseq), if_pos hq, if_pos hbs]
  · intro hq
    unfold Consensus.process_message
    rw [hph]
    dsimp only
    rw [hkind]
    dsimp only
    rw [if_neg (fun hne => hne hseq), if_neg hq]

/-- A single-replica view (`n = 1`, `f = 0`, quorum `1`) led by node 0. -/
def viewSolo : ViewInfo := ViewInfo.mk 0 1 0

/-- C1 witness: in `Committing(0)` under a quorum of 1, processing a
matching `Commit` decides the first `batch_size` digests. -/
theorem c1_committing_commit_witness :
    consCommitting.phase = ProtoPhase.Committing 0 ∧
    msgCommit0.kind = ConsensusMessageKind.Commit ∧
    msgCommit0.seq = Consensus.sequence_number consCommitting ∧
    consCommitting.batch_size ≤ consCommitting.current.length ∧
    0 + 1 = viewSolo.quorum ∧
    Consensus.process_message consCommitting hdr0 msgCommit0 viewSolo
        (Log.new Nat Nat 1) 0 =
      some (ConsensusResult.mk
        (ConsensusStatus.Decided (consCommitting.current.take
          consCommitting.batch_size))
        { consCommitting with phase := ProtoPhase.Init }
        ((Log.new Nat Nat 1).insert hdr0 (SystemMessage.Consensus msgCommit0))
        []) :=
  And.intro rfl (And.intro rfl (And.intro rfl (And.intro (by decide)
    (And.intro rfl
      ((c1_committing_commit consCommitting 0 hdr0 msgCommit0 viewSolo
        (Log.new Nat Nat 1) 0 rfl rfl rfl (by decide)).2.1 rfl)))))

/-! ## Claim C10: the `current` digest buffer never grows -/

theorem process_message_current_length {S O : Type} (c : Consensus)
    (h : Header) (m : ConsensusMessage) (view : ViewInfo) (log : Log S O)
    (nid : NodeId) (r : ConsensusResult S O)
    (hr : c.process_message h m view log nid = some r) :
    r.consensus.current.length = c.current.length := by
  unfold Consensus.process_message at hr
  cases hph : c.phase <;> rw [hph] at hr <;> dsimp only at hr <;>
    cases hk : m.kind <;> rw [hk] at hr <;> dsimp only at hr <;>
    (try split_ifs at hr) <;>
    first
      | (injection hr with hr; subst hr; rfl)
      | (injection hr with hr; subst hr;
          simp only [List.length_append, List.length_drop]; omega)
      | simp at hr

/-- C10: `Consensus::new(seq, b)` allocates a `current` buffer of length
exactly `b`; no embedded operation (`process_message`, `propose`,
`install_sequence_number`, `next_instance`) ever grows it; and processing
a `PrePrepare` for the current sequence number in phase `PrePreparing`
avoids the out-of-bounds copy (`none` models the panic) precisely when
the message's digest list is no longer than the buffer. -/
theorem c10_current_buffer (S O : Type) :
    (∀ seq b, (Consensus.new seq b).current.length = b) ∧
    (∀ (c : Consensus) h m view (log : Log S O) nid r,
        c.process_message h m view log nid = some r →
        r.consensus.current.length = c.current.length) ∧
    (∀ (c : Consensus) digests view nid,
        (c.propose digests view nid).1.current = c.current) ∧
    (∀ (c : Consensus) seq c', c.install_sequence_number seq = some c' →
        c'.current = c.current) ∧
    (∀ c : Consensus, c.next_instance.current = c.current) ∧
    (∀ (c : Consensus) h m view (log : Log S O) nid digests,
        c.phase = ProtoPhase.PrePreparing →
        m.kind = ConsensusMessageKind.PrePrepare digests →
        m.seq = Consensus.sequence_number c →
        ((c.process_message h m view log nid).isSome ↔
          digests.length ≤ c.current.length)) := by
  refine And.intro ?_ (And.intro ?_ (And.intro ?_ (And.intro ?_
    (And.intro ?_ ?_))))
  · intro seq b
    simp [Consensus.new]
  · intro c h m view log nid r hr
    exact process_message_current_length c h m view log nid r hr
  · intro c digests view nid
    unfold Consensus.propose
    cases hph : c.phase <;> dsimp only <;> (try split_ifs) <;> rfl
  · intro c seq c' hr
    unfold Consensus.install_sequence_number at hr
    cases hidx : SeqNo.index seq (Consensus.sequence_number c) <;>
      rw [hidx] at hr <;> dsimp only at hr <;> (try split_ifs at hr) <;>
      first
        | (injection hr with hr; subst hr; rfl)
        | simp at hr
  · intro c
    rfl
  · intro c h m view log nid digests hph hk hseq
    unfold Consensus.process_message
    rw [hph]
    dsimp only
    rw [hk]
    dsimp only
    rw [if_neg (fun hne => hne hseq)]
    by_cases hl : c.current.length < digests.length
    · rw [if_pos hl]
      simp
      omega
    · rw [if_neg hl]
      simp
      omega

/-- A `PrePrepare` for seq `0` carrying one digest. -/
def msgPrePrepare0 : ConsensusMessage :=
  ConsensusMessage.mk SeqNo.zero (ConsensusMessageKind.PrePrepare [5])

/-- A fresh consensus state in phase `PrePreparing` with a one-slot
batch buffer. -/
def consPrePreparing : Consensus :=
  { Consensus.new SeqNo.zero 1 with phase := ProtoPhase.PrePreparing }

/-- C10 witness: a one-digest `PrePrepare` fits the one-slot buffer, so
processing succeeds; the buffer of a fresh tracker has the requested
length. -/
theorem c10_current_buffer_witness :
    (Consensus.new SeqNo.zero 3).current.length = 3 ∧
    consPrePreparing.phase = ProtoPhase.PrePreparing ∧
    msgPrePrepare0.kind = ConsensusMessageKind.PrePrepare [5] ∧
    msgPrePrepare0.seq = Consensus.sequence_number consPrePreparing ∧
    ((Consensus.process_message consPrePreparing hdr0 msgPrePrepare0 viewSolo
        (Log.new Nat Nat 1) 0).isSome ↔
      ([5] : List Digest).length ≤ consPrePreparing.current.length) :=
  And.intro ((c10_current_buffer Nat Nat).1 SeqNo.zero 3)
    (And.intro rfl (And.intro rfl (And.intro rfl
      ((c10_current_buffer Nat Nat).2.2.2.2.2 consPrePreparing hdr0
        msgPrePrepare0 viewSolo (Log.new Nat Nat 1) 0 [5] rfl rfl rfl))))

/-! ## Claim C2: `finalize_checkpoint` -/

/-- A log holding a partial checkpoint and exactly one `PRE-PREPARE`
(for seq `0`). -/
def logPartialOnePP : Log Nat Nat :=
  { Log.new Nat Nat 1 with
    checkpoint := CheckpointState.Partial SeqNo.zero
    declog := DecisionLog.mk [StoredMessage.mk hdr0 msgPrePrepare0] [] [] }

/-- C2 counterexample: finalizing a partial checkpoint leaves the
`pre_prepares` list empty — the popped last `PRE-PREPARE` is not
re-pushed (only its sequence number is kept in `curr_seq`), so the list
does not still contain that entry as claimed. -/
theorem c2_finalize_clears_pre_prepares :
    logPartialOnePP.declog.pre_prepares.length = 1 ∧
    (Log.finalize_checkpoint logPartialOnePP 42).1.declog.pre_prepares = []
      := by
  constructor
  · rfl
  · rfl

/-- C2 (amended): for every log whose checkpoint state is `Partial` or
`PartialWithEarlier` with recorded seq, `finalize_checkpoint(appstate)`
succeeds, sets the checkpoint to `Complete` with the recorded seq, clears
the decided-operations list, pops the last `PRE-PREPARE` and clears the
`pre_prepares` list (which is therefore empty afterwards), clears the
prepares and commits lists, sets `curr_seq` to that last pre-prepare's
sequence number (leaving it unchanged when there was none), and leaves
the requests, deciding and batch-size fields unchanged. -/
theorem c2_finalize_checkpoint {S O : Type} (l : Log S O) (appstate : S)
    (seq : SeqNo)
    (hck : l.checkpoint = CheckpointState.Partial seq ∨
      ∃ e, l.checkpoint = CheckpointState.PartialWithEarlier seq e) :
    (l.finalize_checkpoint appstate).2 = Except.ok () ∧
    (l.finalize_checkpoint appstate).1.checkpoint
      = CheckpointState.Complete (Checkpoint.mk seq appstate) ∧
    (l.finalize_checkpoint appstate).1.decided = [] ∧
    (l.finalize_checkpoint appstate).1.declog.pre_prepares = [] ∧
    (l.finalize_checkpoint appstate).1.declog.prepares = [] ∧
    (l.finalize_checkpoint appstate).1.declog.commits = [] ∧
    (l.finalize_checkpoint appstate).1.curr_seq =
      (match l.declog.pre_prepares.getLast? with
        | some sp => sp.message.seq
        | none => l.curr_seq) ∧
    (l.finalize_checkpoint appstate).1.requests = l.requests ∧
    (l.finalize_checkpoint appstate).1.deciding = l.deciding ∧
    (l.finalize_checkpoint appstate).1.batch_size = l.batch_size := by
  rcases hck with hck | ⟨e, hck⟩
  all_goals
    unfold Log.finalize_checkpoint
    rw [hck]
    dsimp only
    cases hlast : l.declog.pre_prepares.getLast? with
    | none =>
      exact ⟨rfl, rfl, rfl, List.getLast?_eq_none_iff.mp hlast, rfl, rfl,
        rfl, rfl, rfl, rfl⟩
    | some sp =>
      exact ⟨rfl, rfl, rfl, rfl, rfl, rfl, rfl, rfl, rfl, rfl⟩

/-- C2 witness: finalizing the partial checkpoint of the one-pre-prepare
log succeeds and completes the checkpoint at the recorded seq. -/
theorem c2_finalize_checkpoint_witness :
    logPartialOnePP.checkpoint = CheckpointState.Partial SeqNo.zero ∧
    (Log.finalize_checkpoint logPartialOnePP 42).2 = Except.ok () ∧
    (Log.finalize_checkpoint logPartialOnePP 42).1.checkpoint
      = CheckpointState.Complete (Checkpoint.mk SeqNo.zero 42) :=
  And.intro rfl
    (And.intro
      (c2_finalize_checkpoint logPartialOnePP 42 SeqNo.zero (Or.inl rfl)).1
      (c2_finalize_checkpoint logPartialOnePP 42 SeqNo.zero (Or.inl rfl)).2.1)

/-! ## Claim C5: `finalize_batch` and checkpoint periodicity -/

theorem removeBatch_fields {S O : Type} (digests : List Digest) (l : Log S O)
    (b : UpdateBatch O) :
    (Log.removeBatch l digests b).1.declog = l.declog ∧
    (Log.removeBatch l digests b).1.curr_seq = l.curr_seq ∧
    (Log.removeBatch l digests b).1.checkpoint = l.checkpoint ∧
    (Log.removeBatch l digests b).1.decided = l.decided := by
  induction digests generalizing l b with
  | nil => exact ⟨rfl, rfl, rfl, rfl⟩
  | cons d rest ih =>
    unfold Log.removeBatch
    cases h1 : alistRemove l.deciding d with
    | some p =>
      cases p with
      | mk sm deciding' =>
        dsimp only
        exact ih { l with deciding := deciding' } _
    | none =>
      cases h2 : alistRemove l.requests d with
      | some p =>
        cases p with
        | mk sm requests' =>
          dsimp only
          exact ih { l with requests := requests' } _
      | none => exact ⟨rfl, rfl, rfl, rfl⟩

/-- The sequence number `1000`, one checkpoint period past `0`. -/
def seq1000 : SeqNo :=
  SeqNo.mk 1000 (by norm_num [I32_MIN]) (by norm_num [I32_MAX])

/-- A log already holding a partial checkpoint whose last `PRE-PREPARE`
sits at seq `1000`. -/
def logPartialAt1000 : Log Nat Nat :=
  { Log.new Nat Nat 1 with
    checkpoint := CheckpointState.Partial SeqNo.zero
    declog := DecisionLog.mk
      [StoredMessage.mk hdr0
        (ConsensusMessage.mk seq1000 (ConsensusMessageKind.PrePrepare []))]
      [] [] }

/-- C5 counterexample: with an empty batch (trivially all present) and a
last pre-prepare seq of `1000` (positive and divisible by `PERIOD`), a
log whose checkpoint is already `Partial` makes `finalize_batch` return
an error — neither `BeginCheckpoint` nor `Nil` as the claim requires. -/
theorem c5_finalize_batch_error :
    SeqNo.toU32 seq1000 = 1000 ∧
    (Log.finalize_batch logPartialAt1000 []).2
      = Except.error "Invalid checkpoint state detected" := by
  exact ⟨rfl, rfl⟩

/-- C5 (amended): for every log and batch of digests whose removal from
the `deciding`/`requests` maps succeeds, `finalize_batch` returns
`Info::BeginCheckpoint` and moves the checkpoint to `Partial` (from
`None`) or `PartialWithEarlier` (from `Complete`) exactly when the
sequence number read from the most recent pre-prepare (fallback
`curr_seq`) is positive and divisible by `PERIOD = 1000` and the
checkpoint state is `None` or `Complete`; when that sequence condition
holds but a checkpoint is already in progress (`Partial` or
`PartialWithEarlier`) it returns an error; and when the sequence
condition fails it returns `Info::Nil` leaving the checkpoint
unchanged. -/
theorem c5_finalize_batch {S O : Type} (l : Log S O) (digests : List Digest)
    (l1 : Log S O) (batch : UpdateBatch O)
    (hrm : Log.removeBatch l digests UpdateBatch.new = (l1, some batch)) :
    ((0 < SeqNo.toU32 (finalizeLastSeq l) ∧
        SeqNo.toU32 (finalizeLastSeq l) % PERIOD = 0) →
      (l.checkpoint = CheckpointState.None →
        (l.finalize_batch digests).2
          = Except.ok (Info.BeginCheckpoint, batch) ∧
        (l.finalize_batch digests).1.checkpoint
          = CheckpointState.Partial (finalizeLastSeq l)) ∧
      (∀ cp, l.checkpoint = CheckpointState.Complete cp →
        (l.finalize_batch digests).2
          = Except.ok (Info.BeginCheckpoint, batch) ∧
        (l.finalize_batch digests).1.checkpoint
          = CheckpointState.PartialWithEarlier (finalizeLastSeq l) cp) ∧
      (∀ seq, l.checkpoint = CheckpointState.Partial seq →
        (l.finalize_batch digests).2
          = Except.error "Invalid checkpoint state detected") ∧
      (∀ seq e, l.checkpoint = CheckpointState.PartialWithEarlier seq e →
        (l.finalize_batch digests).2
          = Except.error "Invalid checkpoint state detected")) ∧
    (¬ (0 < SeqNo.toU32 (finalizeLastSeq l) ∧
        SeqNo.toU32 (finalizeLastSeq l) % PERIOD = 0) →
      (l.finalize_batch digests).2 = Except.ok (Info.Nil, batch) ∧
      (l.finalize_batch digests).1.checkpoint = l.checkpoint) := by
  have hfields := removeBatch_fields digests l UpdateBatch.new
  rw [hrm] at hfields
  dsimp only at hfields
  have hl2 : finalizeLastSeq
      { l1 with decided := l1.decided ++ batch.inner.map Update.operation }
      = finalizeLastSeq l := by
    unfold finalizeLastSeq
    dsimp only
    rw [hfields.1, hfields.2.1]
  have hck2 : ({ l1 with
      decided := l1.decided ++ batch.inner.map Update.operation } : Log S O).checkpoint
      = l.checkpoint := hfields.2.2.1
  constructor
  · intro hcond
    refine And.intro ?_ (And.intro ?_ (And.intro ?_ ?_))
    · intro hck
      unfold Log.finalize_batch
      rw [hrm]
      dsimp only
      rw [hl2, if_pos hcond]
      unfold Log.begin_checkpoint
      rw [hck2, hck]
      exact ⟨rfl, rfl⟩
    · intro cp hck
      unfold Log.finalize_batch
      rw [hrm]
      dsimp only
      rw [hl2, if_pos hcond]
      unfold Log.begin_checkpoint
      rw [hck2, hck]
      exact ⟨rfl, rfl⟩
    · intro seq hck
      unfold Log.finalize_batch
      rw [hrm]
      dsimp only
      rw [hl2, if_pos hcond]
      unfold Log.begin_checkpoint
      rw [hck2, hck]
    · intro seq e hck
      unfold Log.finalize_batch
      rw [hrm]
      dsimp only
      rw [hl2, if_pos hcond]
      unfold Log.begin_checkpoint
      rw [hck2, hck]
  · intro hcond
    unfold Log.finalize_batch
    rw [hrm]
    dsimp only
    rw [hl2, if_neg hcond]
    exact ⟨rfl, hck2⟩

/-- A log at a checkpoint boundary: no checkpoint yet, last pre-prepare
at seq `1000`. -/
def logNoneAt1000 : Log Nat Nat :=
  { Log.new Nat Nat 1 with
    declog := DecisionLog.mk
      [StoredMessage.mk hdr0
        (ConsensusMessage.mk seq1000 (ConsensusMessageKind.PrePrepare []))]
      [] [] }

/-- C5 witness: at the period boundary with no checkpoint in progress,
`finalize_batch` begins a checkpoint and moves to `Partial`. -/
theorem c5_finalize_batch_witness :
    Log.removeBatch logNoneAt1000 [] UpdateBatch.new
      = (logNoneAt1000, some UpdateBatch.new) ∧
    (0 < SeqNo.toU32 (finalizeLastSeq logNoneAt1000) ∧
      SeqNo.toU32 (finalizeLastSeq logNoneAt1000) % PERIOD = 0) ∧
    logNoneAt1000.checkpoint = CheckpointState.None ∧
    (Log.finalize_batch logNoneAt1000 []).2
      = Except.ok (Info.BeginCheckpoint, UpdateBatch.new) ∧
    (Log.finalize_batch logNoneAt1000 []).1.checkpoint
      = CheckpointState.Partial (finalizeLastSeq logNoneAt1000) :=
  And.intro rfl (And.intro (by decide) (And.intro rfl
    ((c5_finalize_batch logNoneAt1000 [] logNoneAt1000 UpdateBatch.new rfl).1
      (by decide) |>.1 rfl)))

/-! ## Claim C4: CST latest-cid discovery (`ReceivingCid`) -/

/-- One step of the CST state machine on a delivered message. -/
def cstStep {S O : Type} (cst : CollabStateTransfer S O) (h : Header)
    (m : CstMessage S O) (view : ViewInfo) (consensus : Consensus)
    (log : Log S O) : CstResult S O :=
  CollabStateTransfer.process_message cst (CstProgress.Message h m) view
    consensus log

/-- C4: in phase `ReceivingCid(i)`, a `ReplyLatestConsensusSeq` with the
current `cst_seq` updates the tally (greater replaces and resets the
count to 1, equal increments, smaller is ignored); when the number of
matching replies `i + 1` reaches the quorum `2f + 1` the protocol yields
`SeqNo(latest_cid)` if `latest_cid_count > f` and `RequestLatestCid`
otherwise, and below the quorum it stays `Running` in
`ReceivingCid(i + 1)`. -/
theorem c4_receiving_cid {S O : Type} (cst : CollabStateTransfer S O) (i : Nat)
    (h : Header) (m : CstMessage S O) (view : ViewInfo) (consensus : Consensus)
    (log : Log S O) (seq : SeqNo)
    (hph : cst.phase = CstProtoPhase.ReceivingCid i)
    (hseq : m.seq = cst.cst_seq)
    (hk : m.kind = CstMessageKind.ReplyLatestConsensusSeq seq) :
    view.quorum = 2 * view.f + 1 ∧
    ((cst.latest_cid.val < seq.val →
        (cstStep cst h m view consensus log).cst.latest_cid = seq ∧
        (cstStep cst h m view consensus log).cst.latest_cid_count = 1) ∧
      (seq.val = cst.latest_cid.val →
        (cstStep cst h m view consensus log).cst.latest_cid = cst.latest_cid ∧
        (cstStep cst h m view consensus log).cst.latest_cid_count
          = cst.latest_cid_count + 1) ∧
      (seq.val < cst.latest_cid.val →
        (cstStep cst h m view consensus log).cst.latest_cid = cst.latest_cid ∧
        (cstStep cst h m view consensus log).cst.latest_cid_count
          = cst.latest_cid_count)) ∧
    (i + 1 = view.quorum →
      (view.f < (cstStep cst h m view consensus log).cst.latest_cid_count →
        (cstStep cst h m view consensus log).status
          = CstStatus.SeqNo (cstStep cst h m view consensus log).cst.latest_cid) ∧
      (¬ view.f < (cstStep cst h m view consensus log).cst.latest_cid_count →
        (cstStep cst h m view consensus log).status
          = CstStatus.RequestLatestCid) ∧
      (cstStep cst h m view consensus log).cst.phase = CstProtoPhase.Init) ∧
    (i + 1 ≠ view.quorum →
      (cstStep cst h m view consensus log).status = CstStatus.Running ∧
      (cstStep cst h m view consensus log).cst.phase
        = CstProtoPhase.ReceivingCid (i + 1)) := by
  have hred : cstStep cst h m view consensus log =
      (let cst1 :=
        match compare seq.val cst.latest_cid.val with
        | Ordering.gt => { cst with latest_cid := seq, latest_cid_count := 1 }
        | Ordering.eq => { cst with latest_cid_count := cst.latest_cid_count + 1 }
        | Ordering.lt => cst
      if i + 1 = view.quorum then
        let cst2 := { cst1 with phase := CstProtoPhase.Init }
        if view.f < cst2.latest_cid_count then
          CstResult.mk (CstStatus.SeqNo cst2.latest_cid)
            { cst2 with curr_timeout := cst2.base_timeout } []
        else
          CstResult.mk CstStatus.RequestLatestCid cst2 []
      else
        CstResult.mk CstStatus.Running
          { cst1 with phase := CstProtoPhase.ReceivingCid (i + 1) } []) := by
    unfold cstStep CollabStateTransfer.process_message
    rw [hph]
    dsimp only
    rw [if_neg (fun hne => hne hseq), hk]
  refine And.intro rfl (And.intro ?_ (And.intro ?_ ?_))
  · refine And.intro ?_ (And.intro ?_ ?_)
    · intro hlt
      have hcmp : compare seq.val cst.latest_cid.val = Ordering.gt := by
        rw [compare_gt_iff_gt]; exact hlt
      rw [hred, hcmp]
      dsimp only
      split_ifs <;> exact ⟨rfl, rfl⟩
    · intro heq
      have hcmp : compare seq.val cst.latest_cid.val = Ordering.eq := by
        rw [compare_eq_iff_eq]; exact heq
      rw [hred, hcmp]
      dsimp only
      split_ifs <;> exact ⟨rfl, rfl⟩
    · intro hgt
      have hcmp : compare seq.val cst.latest_cid.val = Ordering.lt := by
        rw [compare_lt_iff_lt]; exact hgt
      rw [hred, hcmp]
      dsimp only
      split_ifs <;> exact ⟨rfl, rfl⟩
  · intro hq
    cases hcmp : compare seq.val cst.latest_cid.val <;>
      (rw [hred, hcmp]
       dsimp only
       rw [if_pos hq]
       try dsimp only
       split_ifs with hf2
       · exact ⟨fun _ => rfl, fun hfneg => absurd hf2 hfneg, rfl⟩
       · exact ⟨fun hf => absurd hf hf2, fun _ => rfl, rfl⟩)
  · intro hq
    cases hcmp : compare seq.val cst.latest_cid.val <;>
      (rw [hred, hcmp]
       dsimp only
       rw [if_neg hq]
       exact ⟨rfl, rfl⟩)

/-- A CST state waiting for the first cid reply of round `cst_seq = 0`. -/
def cstRecvCid0 : CollabStateTransfer Nat Nat :=
  { CollabStateTransfer.new Nat Nat 5 with phase := CstProtoPhase.ReceivingCid 0 }

/-- A `ReplyLatestConsensusSeq(1000)` for cst round `0`. -/
def msgReplyCid1000 : CstMessage Nat Nat :=
  CstMessage.mk SeqNo.zero (CstMessageKind.ReplyLatestConsensusSeq seq1000)

/-- C4 witness: under a quorum of 1, a single reply carrying cid `1000`
wins the round, yielding `SeqNo(1000)`. -/
theorem c4_receiving_cid_witness :
    cstRecvCid0.phase = CstProtoPhase.ReceivingCid 0 ∧
    msgReplyCid1000.seq = cstRecvCid0.cst_seq ∧
    (cstStep cstRecvCid0 hdr0 msgReplyCid1000 viewSolo consInit
        (Log.new Nat Nat 1)).status = CstStatus.SeqNo seq1000 := by
  have hthm := c4_receiving_cid cstRecvCid0 0 hdr0 msgReplyCid1000 viewSolo
    consInit (Log.new Nat Nat 1) seq1000 rfl rfl rfl
  have htal := hthm.2.1.1 (by decide)
  have hdec := (hthm.2.2.1 rfl).1 (by rw [htal.2]; decide)
  rw [htal.1] at hdec
  exact ⟨rfl, rfl, hdec⟩

/-! ## Claim C3: CST state quorum (`ReceivingState`) -/

/-- The recovery states carried by replies of a message list that the
`ReceivingState` phase accepts for round `s` and buckets under header
digest `d` (matching `cst_seq` and a present state). -/
def acceptedReplies {S O : Type} (s : SeqNo)
    (msgs : List (Header × CstMessage S O)) (d : Digest) :
    List (RecoveryState S O) :=
  msgs.filterMap (fun hm =>
    match hm.2.take_state with
    | some st => if hm.2.seq = s ∧ hm.1.digest = d then some st else none
    | none => none)

/-- Every bucket of `received_states` counts at most the accepted replies
of its digest seen so far, and stores a state carried by one of them. -/
def bucketsBounded {S O : Type} (s : SeqNo) (cst : CollabStateTransfer S O)
    (past : List (Header × CstMessage S O)) : Prop :=
  ∀ d rs', (d, rs') ∈ cst.received_states →
    rs'.count ≤ (acceptedReplies s past d).length ∧
    rs'.state ∈ acceptedReplies s past d

theorem acceptedReplies_append {S O : Type} (s : SeqNo)
    (l1 l2 : List (Header × CstMessage S O)) (d : Digest) :
    acceptedReplies s (l1 ++ l2) d
      = acceptedReplies s l1 d ++ acceptedReplies s l2 d := by
  unfold acceptedReplies
  exact List.filterMap_append l1 l2 _

theorem acceptedReplies_single_hit {S O : Type} (s : SeqNo) (h : Header)
    (m : CstMessage S O) (st : RecoveryState S O) (d : Digest)
    (hseq : m.seq = s) (hst : m.take_state = some st) :
    acceptedReplies s [(h, m)] d = if h.digest = d then [st] else [] := by
  unfold acceptedReplies
  rw [List.filterMap_cons]
  dsimp only
  rw [hst]
  dsimp only
  simp only [hseq, true_and, List.filterMap_nil]
  by_cases hd : h.digest = d
  · rw [if_pos hd, if_pos hd]
  · rw [if_neg hd, if_neg hd]

theorem acceptedReplies_single_miss {S O : Type} (s : SeqNo) (h : Header)
    (m : CstMessage S O) (d : Digest)
    (hmiss : m.seq ≠ s ∨ m.take_state = none) :
    acceptedReplies s [(h, m)] d = [] := by
  unfold acceptedReplies
  rw [List.filterMap_cons]
  dsimp only
  cases hst : m.take_state with
  | none => rfl
  | some st =>
    rcases hmiss with hne | hnone
    · dsimp only
      rw [if_neg (fun hc => hne hc.1)]
      rfl
    · rw [hst] at hnone; cases hnone

theorem bucketsBounded_extend {S O : Type} (s : SeqNo)
    (cst cst2 : CollabStateTransfer S O)
    (past : List (Header × CstMessage S O)) (hm : Header × CstMessage S O)
    (hrs : cst2.received_states = cst.received_states)
    (hb : bucketsBounded s cst past) :
    bucketsBounded s cst2 (past ++ [hm]) := by
  intro d rs' hmem
  rw [hrs] at hmem
  obtain ⟨hcount, hstate⟩ := hb d rs' hmem
  rw [acceptedReplies_append, List.length_append]
  exact ⟨Nat.le_add_right_of_le hcount, List.mem_append_left _ hstate⟩

theorem alistRemove_mem {α : Type} (l : List (Digest × α)) (d : Digest)
    (v : α) (rest : List (Digest × α)) (h : alistRemove l d = some (v, rest)) :
    (d, v) ∈ l := by
  induction l generalizing rest with
  | nil => simp [alistRemove] at h
  | cons p tail ih =>
    unfold alistRemove at h
    split at h
    case isTrue hd =>
      injection h with h
      have hv : p.2 = v := congrArg Prod.fst h
      have hp : p = (d, v) := by
        cases p
        dsimp only at hd hv
        rw [hd, hv]
      rw [← hp]
      exact List.mem_cons_self p tail
    case isFalse hd =>
      cases h2 : alistRemove tail d with
      | some q =>
        cases q with
        | mk v' rest' =>
          rw [h2] at h
          dsimp only at h
          injection h with h
          have hv : v' = v := congrArg Prod.fst h
          rw [hv] at h2
          exact List.mem_cons_of_mem p (ih rest' h2)
      | none => rw [h2] at h; cases h

theorem bump_mem {S O : Type} (l : List (Digest × ReceivedState S O))
    (d0 : Digest) (st : RecoveryState S O) (d : Digest)
    (rs' : ReceivedState S O)
    (hmem : (d, rs') ∈ bumpReceivedState l d0 st) :
    (∃ rs0, (d, rs0) ∈ l ∧
      ((d ≠ d0 ∧ rs' = rs0) ∨
        (d = d0 ∧ rs'.count = rs0.count + 1 ∧ rs'.state = rs0.state))) ∨
    (d = d0 ∧ rs'.count = 1 ∧ rs'.state = st) := by
  unfold bumpReceivedState at hmem
  split at hmem
  case isTrue hcont =>
    rw [List.mem_map] at hmem
    obtain ⟨p, hp, heq⟩ := hmem
    by_cases hd : p.1 = d0
    · rw [if_pos hd] at heq
      have hd2 : p.1 = d := congrArg Prod.fst heq
      have hr : ReceivedState.mk (p.2.count + 1) p.2.state = rs' :=
        congrArg Prod.snd heq
      refine Or.inl ⟨p.2, ?_, Or.inr ⟨by rw [← hd2, hd], ?_, ?_⟩⟩
      · have : (d, p.2) = p := by cases p; dsimp only at hd2 ⊢; rw [hd2]
        rw [this]; exact hp
      · rw [← hr]
      · rw [← hr]
    · rw [if_neg hd] at heq
      have hd2 : p.1 = d := congrArg Prod.fst heq
      have hr : p.2 = rs' := congrArg Prod.snd heq
      refine Or.inl ⟨p.2, ?_, Or.inl ⟨by rw [← hd2]; exact hd, hr.symm⟩⟩
      have : (d, p.2) = p := by cases p; dsimp only at hd2 ⊢; rw [hd2]
      rw [this]; exact hp
  case isFalse hcont =>
    rw [List.mem_append] at hmem
    rcases hmem with hin | hnew
    · refine Or.inl ⟨rs', hin, Or.inl ⟨?_, rfl⟩⟩
      intro hc
      apply hcont
      unfold alistContains
      rw [List.any_eq_true]
      exact ⟨(d, rs'), hin, by dsimp only; rw [hc]; simp⟩
    · rw [List.mem_singleton] at hnew
      have hd : d0 = d := congrArg Prod.fst hnew.symm
      have hr : ReceivedState.mk 1 st = rs' := congrArg Prod.snd hnew.symm
      exact Or.inr ⟨hd.symm, by rw [← hr], by rw [← hr]⟩

theorem bump_bounded {S O : Type} (s : SeqNo)
    (received : List (Digest × ReceivedState S O))
    (past : List (Header × CstMessage S O)) (h : Header) (m : CstMessage S O)
    (st : RecoveryState S O) (hse : m.seq = s) (hst : m.take_state = some st)
    (hbound : ∀ d rs', (d, rs') ∈ received →
      rs'.count ≤ (acceptedReplies s past d).length ∧
      rs'.state ∈ acceptedReplies s past d) :
    ∀ d rs', (d, rs') ∈ bumpReceivedState received h.digest st →
      rs'.count ≤ (acceptedReplies s (past ++ [(h, m)]) d).length ∧
      rs'.state ∈ acceptedReplies s (past ++ [(h, m)]) d := by
  intro d rs' hmem
  have hsingle := acceptedReplies_single_hit s h m st d hse hst
  rw [acceptedReplies_append, List.length_append, hsingle]
  rcases bump_mem received h.digest st d rs' hmem with
    ⟨rs0, hin, hcase⟩ | ⟨hd, hcount, hstate⟩
  · obtain ⟨hcount0, hstate0⟩ := hbound d rs0 hin
    rcases hcase with ⟨hne, heq⟩ | ⟨hd, hcount, hstate⟩
    · rw [heq]
      rw [if_neg (fun hc => hne hc.symm)]
      exact ⟨Nat.le_add_right_of_le hcount0, List.mem_append_left _ hstate0⟩
    · rw [if_pos hd.symm]
      constructor
      · rw [hcount]
        simp only [List.length_singleton]
        omega
      · rw [hstate]
        exact List.mem_append_left _ hstate0
  · rw [if_pos hd.symm]
    constructor
    · rw [hcount]
      simp only [List.length_singleton]
      omega
    · rw [hstate]
      exact List.mem_append_right _ (List.mem_singleton_self st)

theorem receivingState_step {S O : Type} (cst : CollabStateTransfer S O)
    (i : Nat) (h : Header) (m : CstMessage S O) (view : ViewInfo)
    (consensus : Consensus) (log : Log S O)
    (past : List (Header × CstMessage S O)) (s : SeqNo)
    (hseq : cst.cst_seq = s)
    (hph : cst.phase = CstProtoPhase.ReceivingState i)
    (hbound : bucketsBounded s cst past) :
    (cstStep cst h m view consensus log).cst.cst_seq = s ∧
    (∃ j, (cstStep cst h m view consensus log).cst.phase
      = CstProtoPhase.ReceivingState j) ∧
    bucketsBounded s (cstStep cst h m view consensus log).cst
      (past ++ [(h, m)]) ∧
    (∀ rs, (cstStep cst h m view consensus log).status = CstStatus.State rs →
      ∃ d, view.f + 1 ≤ (acceptedReplies s (past ++ [(h, m)]) d).length ∧
        rs ∈ acceptedReplies s (past ++ [(h, m)]) d) := by
  have hred : cstStep cst h m view consensus log =
      (if m.seq ≠ cst.cst_seq then CstResult.mk CstStatus.Running cst [] else
        match m.take_state with
        | none => CstResult.mk CstStatus.Running cst []
        | some state =>
          let bumped := bumpReceivedState cst.received_states h.digest state
          let cst1 := { cst with received_states := bumped }
          if i + 1 ≠ view.quorum then
            CstResult.mk CstStatus.Running
              { cst1 with phase := CstProtoPhase.ReceivingState (i + 1) } []
          else
            match alistMaxCount bumped with
            | none =>
              CstResult.mk CstStatus.RequestState
                { cst1 with received_states := [] } []
            | some digest =>
              match alistRemove bumped digest with
              | some (rs', _) =>
                if view.f < rs'.count then
                  CstResult.mk (CstStatus.State rs'.state)
                    { cst1 with received_states := [], curr_timeout := cst1.base_timeout } []
                else
                  CstResult.mk CstStatus.RequestState
                    { cst1 with received_states := [], curr_timeout := cst1.base_timeout } []
              | none =>
                CstResult.mk CstStatus.RequestState
                  { cst1 with received_states := [], curr_timeout := cst1.base_timeout } []) := by
    unfold cstStep CollabStateTransfer.process_message
    rw [hph]
  rw [hred]
  by_cases hm1 : m.seq = cst.cst_seq
  · rw [if_neg (fun hne => hne hm1)]
    have hms : m.seq = s := by rw [hm1, hseq]
    cases hst : m.take_state with
    | none =>
      exact ⟨hseq, ⟨i, hph⟩,
        bucketsBounded_extend s cst cst past (h, m) rfl hbound,
        fun rs habs => CstStatus.noConfusion habs⟩
    | some st =>
      dsimp only
      have hbump := bump_bounded s cst.received_states past h m st hms hst hbound
      by_cases hq : i + 1 ≠ view.quorum
      · rw [if_pos hq]
        refine ⟨hseq, ⟨i + 1, rfl⟩, ?_, fun rs habs => CstStatus.noConfusion habs⟩
        intro d rs' hmem
        exact hbump d rs' hmem
      · rw [if_neg hq]
        cases hmax : alistMaxCount (bumpReceivedState cst.received_states h.digest st) with
        | none =>
          exact ⟨hseq, ⟨i, hph⟩, fun d rs' hmem => absurd hmem (List.not_mem_nil _),
            fun rs habs => CstStatus.noConfusion habs⟩
        | some digest =>
          dsimp only
          cases hrem : alistRemove (bumpReceivedState cst.received_states h.digest st) digest with
          | none =>
            exact ⟨hseq, ⟨i, hph⟩, fun d rs' hmem => absurd hmem (List.not_mem_nil _),
              fun rs habs => CstStatus.noConfusion habs⟩
          | some pr =>
            cases pr with
            | mk rs' rest =>
              dsimp only
              by_cases hf : view.f < rs'.count
              · rw [if_pos hf]
                refine ⟨hseq, ⟨i, hph⟩,
                  fun d rs'' hmem => absurd hmem (List.not_mem_nil _), ?_⟩
                intro rs habs
                injection habs with habs
                have hmem := alistRemove_mem _ digest rs' rest hrem
                obtain ⟨hcount, hstate⟩ := hbump digest rs' hmem
                exact ⟨digest, by omega, by rw [← habs]; exact hstate⟩
              · rw [if_neg hf]
                exact ⟨hseq, ⟨i, hph⟩,
                  fun d rs'' hmem => absurd hmem (List.not_mem_nil _),
                  fun rs habs => CstStatus.noConfusion habs⟩
  · rw [if_pos hm1]
    exact ⟨hseq, ⟨i, hph⟩,
      bucketsBounded_extend s cst cst past (h, m) rfl hbound,
      fun rs habs => CstStatus.noConfusion habs⟩

/-- A run of the CST state machine over a list of delivered messages,
collecting the statuses it yields. -/
def cstRun {S O : Type} (view : ViewInfo) (consensus : Consensus)
    (log : Log S O) (cst : CollabStateTransfer S O) :
    List (Header × CstMessage S O) →
    CollabStateTransfer S O × List (CstStatus S O)
  | [] => (cst, [])
  | hm :: rest =>
    let r := CollabStateTransfer.process_message cst
      (CstProgress.Message hm.1 hm.2) view consensus log
    let q := cstRun view consensus log r.cst rest
    (q.1, r.status :: q.2)

theorem cstRun_state_sound {S O : Type} (view : ViewInfo)
    (consensus : Consensus) (log : Log S O) (s : SeqNo) :
    ∀ (msgs past : List (Header × CstMessage S O))
      (cst : CollabStateTransfer S O),
      cst.cst_seq = s →
      (∃ j, cst.phase = CstProtoPhase.ReceivingState j) →
      bucketsBounded s cst past →
      ∀ rs, CstStatus.State rs ∈ (cstRun view consensus log cst msgs).2 →
        ∃ d, view.f + 1 ≤ (acceptedReplies s (past ++ msgs) d).length ∧
          rs ∈ acceptedReplies s (past ++ msgs) d := by
  intro msgs
  induction msgs with
  | nil =>
    intro past cst _ _ _ rs hmem
    exact absurd hmem (List.not_mem_nil _)
  | cons hm rest ih =>
    rintro past cst hseq ⟨j, hph⟩ hbound rs hmem
    have hstep := receivingState_step cst j hm.1 hm.2 view consensus log past s
      hseq hph hbound
    have hassoc : past ++ hm :: rest = (past ++ [hm]) ++ rest := by simp
    rw [cstRun] at hmem
    rcases List.mem_cons.mp hmem with hhead | htail
    · obtain ⟨d, hlen, hin⟩ := hstep.2.2.2 rs hhead.symm
      refine ⟨d, ?_, ?_⟩
      · rw [hassoc, acceptedReplies_append, List.length_append]
        exact Nat.le_add_right_of_le hlen
      · rw [hassoc, acceptedReplies_append]
        exact List.mem_append_left _ hin
    · have hres := ih (past ++ [hm])
        (CollabStateTransfer.process_message cst
          (CstProgress.Message hm.1 hm.2) view consensus log).cst
        hstep.1 hstep.2.1 hstep.2.2.1 rs htail
      rw [hassoc]
      exact hres

/-- C3: (run level) if a CST state-fetch round started by
`request_latest_state` ever yields `State(rs)`, then at least `f + 1` of
the processed replies were accepted state replies bucketed under one
header digest, one of which carried exactly `rs`; (step level) at the
quorum-th accepted reply, if no bucket exceeds `f` the round yields
`RequestState`, and in every case `received_states` is cleared after the
decision. -/
theorem c3_cst_state_quorum (S O : Type) :
    (∀ (st : CollabStateTransfer S O) (view : ViewInfo)
        (consensus : Consensus) (log : Log S O)
        (msgs : List (Header × CstMessage S O)) (rs : RecoveryState S O),
      CstStatus.State rs ∈
        (cstRun view consensus log ((st.request_latest_state view).1) msgs).2 →
      ∃ d, view.f + 1 ≤
          (acceptedReplies ((st.request_latest_state view).1).cst_seq msgs d).length ∧
        rs ∈ acceptedReplies ((st.request_latest_state view).1).cst_seq msgs d) ∧
    (∀ (cst : CollabStateTransfer S O) (i : Nat) (h : Header)
        (m : CstMessage S O) (view : ViewInfo) (consensus : Consensus)
        (log : Log S O) (st' : RecoveryState S O),
      cst.phase = CstProtoPhase.ReceivingState i → i + 1 = view.quorum →
      m.seq = cst.cst_seq → m.take_state = some st' →
      (∀ d rs', (d, rs') ∈ bumpReceivedState cst.received_states h.digest st' →
        rs'.count ≤ view.f) →
      (cstStep cst h m view consensus log).status = CstStatus.RequestState) ∧
    (∀ (cst : CollabStateTransfer S O) (i : Nat) (h : Header)
        (m : CstMessage S O) (view : ViewInfo) (consensus : Consensus)
        (log : Log S O) (st' : RecoveryState S O),
      cst.phase = CstProtoPhase.ReceivingState i → i + 1 = view.quorum →
      m.seq = cst.cst_seq → m.take_state = some st' →
      (cstStep cst h m view consensus log).cst.received_states = []) := by
  refine And.intro ?_ (And.intro ?_ ?_)
  · intro st view consensus log msgs rs hmem
    have hres := cstRun_state_sound view consensus log
      ((st.request_latest_state view).1).cst_seq msgs []
      ((st.request_latest_state view).1) rfl ⟨0, rfl⟩
      (fun d rs' hmem' => absurd hmem' (List.not_mem_nil _)) rs hmem
    rw [List.nil_append] at hres
    exact hres
  · intro cst i h m view consensus log st' hph hq hms hst hcnt
    unfold cstStep CollabStateTransfer.process_message
    rw [hph]
    dsimp only
    rw [if_neg (fun hne => hne hms), hst]
    dsimp only
    rw [if_neg (fun hne => hne hq)]
    cases hmax : alistMaxCount (bumpReceivedState cst.received_states h.digest st') with
    | none => rfl
    | some digest =>
      dsimp only
      cases hrem : alistRemove (bumpReceivedState cst.received_states h.digest st') digest with
      | none => rfl
      | some pr =>
        cases pr with
        | mk rs' rest =>
          dsimp only
          have hle := hcnt digest rs' (alistRemove_mem _ digest rs' rest hrem)
          rw [if_neg (by omega)]
  · intro cst i h m view consensus log st' hph hq hms hst
    unfold cstStep CollabStateTransfer.process_message
    rw [hph]
    dsimp only
    rw [if_neg (fun hne => hne hms), hst]
    dsimp only
    rw [if_neg (fun hne => hne hq)]
    cases hmax : alistMaxCount (bumpReceivedState cst.received_states h.digest st') with
    | none => rfl
    | some digest =>
      dsimp only
      cases hrem : alistRemove (bumpReceivedState cst.received_states h.digest st') digest with
      | none => rfl
      | some pr =>
        cases pr with
        | mk rs' rest =>
          dsimp only
          by_cases hf : view.f < rs'.count
          · rw [if_pos hf]
          · rw [if_neg hf]

/-- A fresh CST tracker. -/
def cstFresh : CollabStateTransfer Nat Nat := CollabStateTransfer.new Nat Nat 5

/-- The sequence number `1`. -/
def seqOne : SeqNo := SeqNo.next SeqNo.zero

/-- A sample recovery state. -/
def rsEx : RecoveryState Nat Nat :=
  RecoveryState.mk viewSolo (Checkpoint.mk SeqNo.zero 0) [] DecisionLog.new

/-- A `ReplyState` for cst round `1` (the round id after
`request_latest_state` advanced `cst_seq`). -/
def msgReplyStateEx : CstMessage Nat Nat :=
  CstMessage.mk seqOne (CstMessageKind.ReplyState rsEx)

/-- C3 witness: with quorum 1 (`f = 0`), a round consisting of one
accepted state reply concludes with `State`, and the theorem produces a
bucket of at least `f + 1 = 1` accepted replies containing it. -/
theorem c3_cst_state_quorum_witness :
    CstStatus.State rsEx ∈
      (cstRun viewSolo consInit (Log.new Nat Nat 1)
        ((cstFresh.request_latest_state viewSolo).1)
        [(hdr0, msgReplyStateEx)]).2 ∧
    (∃ d, viewSolo.f + 1 ≤
        (acceptedReplies ((cstFresh.request_latest_state viewSolo).1).cst_seq
          [(hdr0, msgReplyStateEx)] d).length ∧
      rsEx ∈ acceptedReplies ((cstFresh.request_latest_state viewSolo).1).cst_seq
        [(hdr0, msgReplyStateEx)] d) := by
  have hrun : (cstRun viewSolo consInit (Log.new Nat Nat 1)
      ((cstFresh.request_latest_state viewSolo).1)
      [(hdr0, msgReplyStateEx)]).2 = [CstStatus.State rsEx] := rfl
  have hmem : CstStatus.State rsEx ∈
      (cstRun viewSolo consInit (Log.new Nat Nat 1)
        ((cstFresh.request_latest_state viewSolo).1)
        [(hdr0, msgReplyStateEx)]).2 := by
    rw [hrun]
    exact List.mem_singleton_self _
  exact ⟨hmem, (c3_cst_state_quorum Nat Nat).1 cstFresh viewSolo consInit
    (Log.new Nat Nat 1) [(hdr0, msgReplyStateEx)] rsEx hmem⟩

end Bafomet
